import Mathlib

/-
  Verification development for the configuration-driven ETL pipeline
  (extract / validate / transform / load chain).

  The Python sources are shallowly embedded as executable Lean functions:
  - src/transformers/data_transformer.py : `loadRows`, `flattenFields`,
    `convertSeries` (from `_convert_series`) and `transform_data`;
  - src/validators/schema_validator.py   : `validate_schema`;
  - src/extractors/api_adapter.py        : `sleepTimeOf`, `extractPage`,
    `extractCursor`, `extractNextLink`;
  - src/loaders/postgres_loader.py       : `load_to_postgres`.

  Modelling conventions, used consistently below:
  - JSON numbers are modelled as integers (`Json.num : Int`); no claim in
    this development depends on fractional JSON literals.
  - pandas missing cells (NaN) and JSON nulls are modelled as
    `Option Json` cells: `none` is a cell absent from a row, `some .null`
    a cell holding a JSON null.  Every pandas conversion used by the code
    treats the two identically except where noted.
  - wall-clock values (`datetime.now`) are passed in as explicit
    parameters, making the time dependence of each function visible.
  - datetime-format parsing (`pd.to_datetime` with a `format=` string) is
    an opaque pure function parameter `DtParse`; all theorems are proved
    for every such parser.
  - Python exceptions that escape a function are modelled with
    `Except Unit` / `Except String`.
-/

/-- JSON documents as persisted in the raw page store (one `Json` per
`response_NNN.json` file, either an object or an array of objects). -/
inductive Json where
  | null : Json
  | bool (b : Bool) : Json
  | num (n : Int) : Json
  | str (s : String) : Json
  | arr (xs : List Json) : Json
  | obj (fields : List (String × Json)) : Json
  deriving Repr

/-- Python truthiness (`bool(x)`) of a parsed JSON value: `None`, `False`,
`0`, `""`, `[]` and `{}` are falsy, everything else truthy.  Used by the
pagination loop of `api_adapter.extract_api` (`if not data`, `bool(cursor)`,
`if next_link`). -/
def Json.truthy : Json → Bool
  | .null => false
  | .bool b => b
  | .num n => n != 0
  | .str s => s != ""
  | .arr xs => !xs.isEmpty
  | .obj fs => !fs.isEmpty

/-- Python `d.get(k)` (default `None`) for a JSON object.  The Python code
calls `.get` only on values it assumes to be dicts; theorems about the
cursor / next-link strategies carry an explicit all-objects hypothesis so
the non-object branch here is never exercised. -/
def Json.get? : Json → String → Option Json
  | .obj fs, k => fs.lookup k
  | _, _ => none

/-- Whether a JSON value is an object (a Python dict). -/
def Json.isObj : Json → Bool
  | .obj _ => true
  | _ => false

/-- Whether a JSON value is a string. -/
def Json.isStr : Json → Bool
  | .str _ => true
  | _ => false

mutual

/-- Python `repr(x)` for parsed JSON values (`None`, `True`, list
brackets, quoted strings).  Only its totality and determinism matter for
the claims; the element order follows the document. -/
def Json.pyRepr : Json → String
  | .null => "None"
  | .bool b => if b then "True" else "False"
  | .num n => toString n
  | .str s => "\x27" ++ s ++ "\x27"
  | .arr xs => "[" ++ Json.pyReprList xs ++ "]"
  | .obj fs => "\x7b" ++ Json.pyReprFields fs ++ "\x7d"

/-- Comma-joined `repr` of the elements of a JSON array. -/
def Json.pyReprList : List Json → String
  | [] => ""
  | [x] => Json.pyRepr x
  | x :: xs => Json.pyRepr x ++ ", " ++ Json.pyReprList xs

/-- Comma-joined `repr` of the fields of a JSON object. -/
def Json.pyReprFields : List (String × Json) → String
  | [] => ""
  | [(k, v)] => "\x27" ++ k ++ "\x27: " ++ Json.pyRepr v
  | (k, v) :: fs => "\x27" ++ k ++ "\x27: " ++ Json.pyRepr v ++ ", " ++ Json.pyReprFields fs

end

/-- Python `str(x)` for parsed JSON values: identical to `repr` except on
strings, which print unquoted. -/
def Json.pyStr : Json → String
  | .str s => s
  | j => Json.pyRepr j

/-- Effectful map over a list in the `Except` monad, failing on the first
error (the behaviour of a Python `for` loop whose body may raise). -/
def exceptMap (f : α → Except ε β) : List α → Except ε (List β)
  | [] => .ok []
  | a :: as_ => do
      let b ← f a
      let bs ← exceptMap f as_
      .ok (b :: bs)

/-- A converted cell of the transformer's output: pandas `NA`/`NaT`, a
number (`Int64`/`Float64` cells collapsed to one numeric constructor), a
boolean, a string, or a naive-UTC datetime instant (abstract `Int`
timestamp). -/
inductive Value where
  | na : Value
  | num (q : Rat) : Value
  | bool (b : Bool) : Value
  | str (s : String) : Value
  | dt (t : Int) : Value
  deriving Repr, DecidableEq

/-- Whether a converted cell is missing (`pd.isna`). -/
def Value.isna : Value → Bool
  | .na => true
  | _ => false

/-- Lower-casing of an ASCII string (`str.lower()`). -/
def strLower (s : String) : String := s.map Char.toLower

/-- The case-insensitive truthy set of `_convert_series`
(data_transformer.py line 34). -/
def truthySet : List String := ["true", "1", "yes", "y", "t"]

/-- The case-insensitive falsy set of `_convert_series`
(data_transformer.py line 35). -/
def falsySet : List String := ["false", "0", "no", "n", "f"]

/-- Numeric-literal parsing as performed by `pd.to_numeric` on a string
cell: optional sign, digits with an optional fractional part (exponent
notation is not modelled; no claim uses it). -/
def parseNumeric (s : String) : Option Rat :=
  let t := s.trim
  let sign : Rat := if t.startsWith "-" then -1 else 1
  let t2 := if t.startsWith "-" || t.startsWith "+" then t.drop 1 else t
  match t2.splitOn "." with
  | [a] =>
    if !a.isEmpty && a.all Char.isDigit then
      some (sign * ((a.toNat?.getD 0 : Int) : Rat))
    else none
  | [a, b] =>
    if !(a ++ b).isEmpty && a.all Char.isDigit && b.all Char.isDigit then
      some (sign * (((a.toNat?.getD 0 : Int) : Rat)
        + ((b.toNat?.getD 0 : Int) : Rat) / ((10 : Rat) ^ b.length)))
    else none
  | _ => none

/-- `pd.to_numeric(x, errors=coerce)` on one cell: missing/null coerces to
`NaN` (`none`), booleans to 0/1, numbers pass through, strings parse or
coerce to `NaN`, containers coerce to `NaN`. -/
def toNumericCell : Option Json → Option Rat
  | none => none
  | some .null => none
  | some (.bool b) => some (if b then 1 else 0)
  | some (.num n) => some ((n : Int) : Rat)
  | some (.str s) => parseNumeric s
  | some (.arr _) => none
  | some (.obj _) => none

/-- The `to_bool` helper of `_convert_series` (data_transformer.py lines
36-46) applied to one cell: booleans pass through, missing/null becomes
`NA`, any other scalar is matched, lower-cased and stripped, against the
truthy/falsy sets.  A list-valued cell makes `pd.isna` raise (ambiguous
truth value), which escapes the transform: modelled as `.error`. -/
def toBoolCell : Option Json → Except Unit Value
  | some (.bool b) => .ok (.bool b)
  | none => .ok .na
  | some .null => .ok .na
  | some (.arr _) => .error ()
  | some (.obj _) => .error ()
  | some (.num n) =>
      let s := strLower (Json.pyStr (.num n)).trim
      if truthySet.contains s then .ok (.bool true)
      else if falsySet.contains s then .ok (.bool false)
      else .ok .na
  | some (.str t) =>
      let s := strLower (Json.pyStr (.str t)).trim
      if truthySet.contains s then .ok (.bool true)
      else if falsySet.contains s then .ok (.bool false)
      else .ok .na

/-- Abstract datetime-format parser standing for `pd.to_datetime(value,
format=fmt)` on a single string: given the optional format and the text,
it yields a naive-UTC instant or nothing.  Every theorem below holds for
every such parser. -/
def DtParse : Type := Option String → String → Option Int

/-- `pd.to_datetime(x, format=fmt, errors=coerce, utc=True)` then
`tz_convert(None)` on one cell: strings go through the format parser,
everything else coerces to `NaT`. -/
def toDatetimeCell (pdt : DtParse) (fmt : Option String) : Option Json → Value
  | some (.str s) =>
      match pdt fmt s with
      | some t => .dt t
      | none => .na
  | _ => .na

/-- `x.astype(string)` on one cell: missing/null stays `NA`, any other
value is coerced with `str(x)`. -/
def toStringCell : Option Json → Value
  | none => .na
  | some .null => .na
  | some j => .str j.pyStr

/-- The `type` enum of a field mapping (data_transformer.py lines 24-49;
any unrecognised tag falls through to the string branch, so the enum is
exhaustive for the code's behaviour). -/
inductive MapType where
  | datetime
  | int
  | float
  | bool
  | string
  deriving Repr, DecidableEq

/-- One entry of the config's `mappings` list: dotted source path, target
column, type tag, optional datetime format and optional scale/offset. -/
structure Mapping where
  source : String
  target : String
  ty : MapType
  fmt : Option String
  scale : Option Rat
  offset : Option Rat
  deriving Repr, DecidableEq

/-- The per-type conversion of `_convert_series` before scale/offset.
For `int`, `pd.to_numeric(...).astype(Int64)` raises when a coerced value
is fractional (unsafe cast); that exception escapes the transform, hence
the `Except`.  For `bool`, a list cell raises inside `pd.isna` (see
`toBoolCell`). -/
def convertBase (pdt : DtParse) (ty : MapType) (fmt : Option String)
    (cells : List (Option Json)) : Except Unit (List Value) :=
  match ty with
  | .datetime => .ok (cells.map (toDatetimeCell pdt fmt))
  | .int =>
      let qs := cells.map toNumericCell
      if qs.any (fun q => match q with | some x => x.den != 1 | none => false) then
        .error ()
      else
        .ok (qs.map (fun q => match q with | some x => Value.num x | none => Value.na))
  | .float =>
      .ok ((cells.map toNumericCell).map
        (fun q => match q with | some x => Value.num x | none => Value.na))
  | .bool => exceptMap toBoolCell cells
  | .string => .ok (cells.map toStringCell)

/-- Python `s * n` for strings: `n` copies for positive `n`, the empty
string otherwise. -/
def strRepeat (s : String) (n : Int) : String :=
  String.join (List.replicate n.toNat s)

/-- One cell of `converted * scale` on a numeric or boolean column. -/
def numScale (k : Rat) : Value → Value
  | .na => .na
  | .num q => .num (q * k)
  | .bool b => .num ((if b then (1 : Rat) else 0) * k)
  | v => v

/-- One cell of `converted + offset` on a numeric or boolean column. -/
def numOffset (k : Rat) : Value → Value
  | .na => .na
  | .num q => .num (q + k)
  | .bool b => .num ((if b then (1 : Rat) else 0) + k)
  | v => v

/-- `converted * scale` (data_transformer.py lines 51-55): vectorised per
column.  A datetime column raises and is caught, yielding an all-`NA`
column; a string column repeats for an integral scale and raises (caught,
all-`NA`) for a fractional one; numeric and boolean columns multiply. -/
def applyScaleCol (ty : MapType) (k : Rat) (vs : List Value) : List Value :=
  match ty with
  | .datetime => vs.map (fun _ => Value.na)
  | .string =>
      if k.den == 1 then
        vs.map (fun v => match v with
          | .na => Value.na
          | .str s => Value.str (strRepeat s k.num)
          | w => w)
      else vs.map (fun _ => Value.na)
  | _ => vs.map (numScale k)

/-- `converted + offset` (data_transformer.py lines 56-60): a datetime or
string column raises and is caught, yielding an all-`NA` column; numeric
and boolean columns add. -/
def applyOffsetCol (ty : MapType) (k : Rat) (vs : List Value) : List Value :=
  match ty with
  | .datetime => vs.map (fun _ => Value.na)
  | .string => vs.map (fun _ => Value.na)
  | _ => vs.map (numOffset k)

/-- `_convert_series` (data_transformer.py lines 22-61): per-type
conversion, then the optional scale, then the optional offset. -/
def convertSeries (pdt : DtParse) (m : Mapping) (cells : List (Option Json)) :
    Except Unit (List Value) := do
  let base ← convertBase pdt m.ty m.fmt cells
  let afterScale := match m.scale with
    | some k => applyScaleCol m.ty k base
    | none => base
  match m.offset with
  | some k => .ok (applyOffsetCol m.ty k afterScale)
  | none => .ok afterScale

/-- `_load_rows` (data_transformer.py lines 10-19) over already-parsed
page documents, in sorted file order: list pages extend the row list,
object pages append one row, anything else is skipped. -/
def loadRows : List Json → List Json
  | [] => []
  | Json.arr xs :: rest => xs ++ loadRows rest
  | Json.obj fs :: rest => Json.obj fs :: loadRows rest
  | _ :: rest => loadRows rest

/-- Dotted-path flattening of one JSON object's fields, as performed by
`pd.json_normalize(rows, sep=.)`: nested objects recurse with a dotted
prefix, all other values stay as leaf cells. -/
def flattenFields : List (String × Json) → List (String × Json)
  | [] => []
  | (k, Json.obj fs) :: rest =>
      (flattenFields fs).map (fun p => (k ++ "." ++ p.1, p.2)) ++ flattenFields rest
  | (k, v) :: rest => (k, v) :: flattenFields rest

/-- `pd.json_normalize` over the loaded rows: every record must be a JSON
object, otherwise pandas raises (modelled as `.error`). -/
def flattenAll (rows : List Json) : Except Unit (List (List (String × Json))) :=
  exceptMap (fun r => match r with
    | Json.obj fs => Except.ok (flattenFields fs)
    | _ => Except.error ()) rows

/-- Whether a source column exists in the flattened frame
(`source in df_flat.columns`): some row carries the key, possibly with a
null cell. -/
def colPresent (flat : List (List (String × Json))) (s : String) : Bool :=
  flat.any (fun r => (r.lookup s).isSome)

/-- pandas column assignment `df[k] = v` on one row: overwrite the field
in place when present, append it otherwise. -/
def setField (r : List (String × Value)) (k : String) (v : Value) :
    List (String × Value) :=
  if r.any (fun p => p.1 == k) then
    r.map (fun p => if p.1 == k then (k, v) else p)
  else r ++ [(k, v)]

/-- Field projection of an assembled row; every selected name is present
by construction, so the default is never observed. -/
def getField (r : List (String × Value)) (k : String) : Value :=
  (r.lookup k).getD Value.na

/-- The converted output columns of `transform_data` (lines 99-112): for
each mapping in config order, the source series — a row's cell, `none`
when the row lacks the key; a column absent from every row yields the
all-`NA` series of line 108 — converted by `_convert_series`. -/
def convertedCols (pdt : DtParse) (flat : List (List (String × Json))) :
    List Mapping → Except Unit (List (String × List Value))
  | [] => .ok []
  | m :: ms => do
      let vs ← convertSeries pdt m (flat.map (fun r => r.lookup m.source))
      let rest ← convertedCols pdt flat ms
      .ok ((m.target, vs) :: rest)

/-- The accumulated `invalid_mask` (lines 99, 112): the row-wise OR, over
the converted columns, of `converted.isna()`, starting from the all-false
series. -/
def maskOf (cols : List (String × List Value)) (n : Nat) : List Bool :=
  cols.foldl (fun acc c => acc.zipWith (· || ·) (c.2.map Value.isna))
    (List.replicate n false)

/-- The `out_df` rows (line 96 and the assignments of line 110): starting
from an index-only frame, each converted column is assigned in mapping
order. -/
def outRowsOf (cols : List (String × List Value)) (n : Nat) :
    List (List (String × Value)) :=
  cols.foldl (fun acc c => acc.zipWith (fun r v => setField r c.1 v) c.2)
    (List.replicate n [])

/-- Boolean-mask row selection `xs[~mask]`. -/
def maskDrop (xs : List α) (mask : List Bool) : List α :=
  ((xs.zip mask).filter (fun p => !p.2)).map (fun p => p.1)

/-- Boolean-mask row selection `xs[mask]`. -/
def maskKeep (xs : List α) (mask : List Bool) : List α :=
  ((xs.zip mask).filter (fun p => p.2)).map (fun p => p.1)

/-- The transformer's output frame: ordered column header plus rows of
converted cells aligned with that header. -/
structure TFrame where
  cols : List String
  rows : List (List Value)
  deriving Repr, DecidableEq

/-- Name of the first injected metadata column (line 122). -/
def ingestionCol : String := "ingestion_timestamp"

/-- Name of the second injected metadata column (line 123). -/
def sourceCol : String := "source"

/-- `transform_data` (data_transformer.py lines 64-128), with the config
already parsed (api name and mappings), the raw pages already read in
sorted file order, the wall clock passed as `nowUtc` and the datetime
parser abstract.  Returns the output frame together with the rows written
to the side-channel invalid-rows file (`df_flat[invalid_mask]`, line 115;
the file is written only when that list is non-empty). -/
def transform_data (pdt : DtParse) (nowUtc : Int) (apiName : String)
    (mappings : List Mapping) (pages : List Json) :
    Except Unit (TFrame × List (List (String × Json))) :=
  let rows := loadRows pages
  if rows.isEmpty then
    .ok (⟨(mappings.map (fun m => m.target)) ++ [ingestionCol, sourceCol], []⟩, [])
  else do
    let flat ← flattenAll rows
    let cols ← convertedCols pdt flat mappings
    let n := flat.length
    let mask := maskOf cols n
    let invalidRows := maskKeep flat mask
    let clean := maskDrop (outRowsOf cols n) mask
    let cleanMeta := clean.map (fun r =>
      setField (setField r ingestionCol (Value.dt nowUtc)) sourceCol (Value.str apiName))
    let names := (mappings.map (fun m => m.target)) ++ [ingestionCol, sourceCol]
    .ok (⟨names, cleanMeta.map (fun r => names.map (getField r))⟩, invalidRows)

/-
  ===== Extractor: src/extractors/api_adapter.py =====

  The HTTP server is abstracted as a pure response function per strategy
  (page number, current cursor, or URL → response body); HTTP-level
  failures (401, >= 400, network errors) abort the loop and are outside
  the termination claims modelled here.  The while-loop is bounded by an
  observation fuel: each recursive unrolling is one loop iteration.
-/

/-- Lines 34-36 of api_adapter.py: `requests_per_minute =
rate_limit.get(requests_per_minute, 60)` — the key defaults to 60 when
absent — then `sleep_time = 60.0 / requests_per_minute if
requests_per_minute else 0`. -/
def sleepTimeOf (requestsPerMinute : Option Nat) : Rat :=
  let rpm := requestsPerMinute.getD 60
  if rpm != 0 then (60 : Rat) / (rpm : Rat) else 0

/-- The page-strategy loop (lines 79-137, `pagination.type == page`):
request the current page number; a falsy body (`if not data`, which
subsumes the explicit empty-list test of line 101) stops the loop without
persisting; otherwise the body is persisted, the page number increments,
and — `has_more` still being true — the rate-limit sleep of line 136 runs
when positive.  Returns the persisted pages and the list of sleeps
performed. -/
def extractPage (server : Nat → Json) (sleepTime : Rat) :
    Nat → Nat → List Json × List Rat
  | 0, _ => ([], [])
  | fuel + 1, pageNum =>
      let data := server pageNum
      if !data.truthy then ([], [])
      else
        let rest := extractPage server sleepTime fuel (pageNum + 1)
        (data :: rest.1, (if sleepTime > 0 then [sleepTime] else []) ++ rest.2)

/-- The cursor-strategy loop (lines 79-137, `pagination.type == cursor`):
every response is persisted; the cursor is read from the body by
`cursor_key` and the loop continues while `bool(cursor)` holds.  The
cursor argument is the cursor sent with the current request (`none` on
the first request). -/
def extractCursor (server : Option Json → Json) (cursorKey : String) :
    Nat → Option Json → List Json
  | 0, _ => []
  | fuel + 1, cursor =>
      let data := server cursor
      let nextCursor := data.get? cursorKey
      data :: (match nextCursor with
        | some c => if c.truthy then extractCursor server cursorKey fuel (some c) else []
        | none => [])

/-- The dotted-path walk of lines 123-127: follow each key with `.get`,
breaking to `none` as soon as a segment is missing. -/
def walkPath : Json → List String → Option Json
  | j, [] => some j
  | j, k :: ks =>
      match j.get? k with
      | some v => walkPath v ks
      | none => none

/-- Whether the loop continues after a response under the next-link
strategy (`if next_link:` at line 128): the walked link must be present
and truthy. -/
def linkTruthy : Option Json → Bool
  | some j => j.truthy
  | none => false

/-- The next-link strategy loop (lines 79-137, `pagination.type ==
next_link`): every response is persisted; the link is extracted by the
dotted path; a present truthy string link is followed verbatim, anything
else stops (a truthy non-string link would make the next `session.get`
raise, which the `try` of line 87 turns into a halt — the theorems
restrict to servers whose links are strings or absent). -/
def extractNextLink (server : String → Json) (path : List String) :
    Nat → String → List Json
  | 0, _ => []
  | fuel + 1, url =>
      let data := server url
      data :: (match walkPath data path with
        | some (Json.str u) =>
            if (Json.str u).truthy then extractNextLink server path fuel u else []
        | _ => [])

/-
  ===== Validator: src/validators/schema_validator.py =====

  `pd.DataFrame(all_rows)` keeps top-level keys only (no flattening);
  cells are `Option Json` as in the transformer.  The pandera column
  validator (a third-party library) is abstracted as a cell-check
  parameter `CellCheck`: for a declared dtype, the column's nullability
  and a cell, it decides whether that cell is a coercion failure.  All
  theorems about `validate_schema` hold for every such check, so nothing
  of the library's internals is assumed.
-/

mutual

/-- Structural equality of JSON values, as used by pandas when comparing
cells (`df.duplicated`). -/
def Json.beq : Json → Json → Bool
  | .null, .null => true
  | .bool a, .bool b => a == b
  | .num a, .num b => a == b
  | .str a, .str b => a == b
  | .arr a, .arr b => Json.beqList a b
  | .obj a, .obj b => Json.beqFields a b
  | _, _ => false

/-- Elementwise `Json.beq` on arrays. -/
def Json.beqList : List Json → List Json → Bool
  | [], [] => true
  | a :: as_, b :: bs => Json.beq a b && Json.beqList as_ bs
  | _, _ => false

/-- Fieldwise `Json.beq` on objects. -/
def Json.beqFields : List (String × Json) → List (String × Json) → Bool
  | [], [] => true
  | (ka, va) :: as_, (kb, vb) :: bs => ka == kb && Json.beq va vb && Json.beqFields as_ bs
  | _, _ => false

end

instance : BEq Json := ⟨Json.beq⟩

/-- Declared column dtype tags of the config's `schema.dtypes`
(schema_validator.py lines 45-52). -/
inductive SDtype where
  | int
  | float
  | string
  | datetime
  | bool
  deriving Repr, DecidableEq

/-- The `schema.validation` sub-object: declared unique-key columns and
non-null fields. -/
structure SchemaValidationCfg where
  unique_keys : List String
  non_null_fields : List String
  deriving Repr, DecidableEq

/-- A declared (or inferred) schema: required columns, per-column dtypes
and the validation sub-object. -/
structure SchemaCfg where
  required_columns : List String
  dtypes : List (String × SDtype)
  validation : SchemaValidationCfg
  deriving Repr, DecidableEq

/-- An entry of the validation report's `errors` list: a pandera failure
record (column plus optional integer row index; a missing-column failure
has no index), the duplicate-unique-keys message, the null-field message,
or the no-data marker. -/
inductive VError where
  | failureRecord (col : String) (idx : Option Nat)
  | dupKeys (keys : List String)
  | nullField (field : String)
  | noData
  deriving Repr, DecidableEq

/-- The report-entry texts produced by schema_validator.py: the literal
no-data marker of line 90 and the f-strings of lines 136 and 140
(failure records are pandera dicts, rendered here only nominally). -/
def VError.render : VError → String
  | .noData => "No data found."
  | .dupKeys keys => "Duplicate values found in unique_keys: " ++ toString keys
  | .nullField f => "Null values found in non_null_field: " ++ f
  | .failureRecord c _ => "failure_case: " ++ c

/-- The validation report (lines 90, 131, 141, 150): row counts, error
list, and the inferred schema in inference mode. -/
structure VReport where
  valid_rows : Nat
  invalid_rows : Nat
  errors : List VError
  inferred_schema : Option SchemaCfg
  deriving Repr, DecidableEq

/-- Column order of `pd.DataFrame(all_rows)`: top-level keys in first
appearance order. -/
def dfCols (rows : List Json) : List String :=
  rows.foldl (fun acc r => match r with
    | Json.obj fs => fs.foldl (fun a p => if a.contains p.1 then a else a ++ [p.1]) acc
    | _ => acc) []

/-- One cell of `pd.DataFrame(all_rows)`: the row's top-level value for
the column, `none` when the row lacks the key. -/
def dfCell (r : Json) (k : String) : Option Json :=
  match r with
  | Json.obj fs => fs.lookup k
  | _ => none

/-- `pd.isnull` on a frame cell: missing keys and JSON nulls are null. -/
def cellIsNull : Option Json → Bool
  | none => true
  | some Json.null => true
  | _ => false

/-- Abstract per-cell coercion check standing for the pandera column
validator: declared dtype, column nullability, cell ↦ does coercion
fail.  Theorems about `validate_schema` quantify over every such check. -/
def CellCheck : Type := SDtype → Bool → Option Json → Bool

/-- The pandera failure cases for one declared column: a missing column
is one schema-level record without a row index; a present column yields
one record per failing cell, indexed by row position. -/
def colRecords (cf : CellCheck) (rows : List Json) (cols : List String)
    (nonNull : List String) (cd : String × SDtype) : List VError :=
  if cols.contains cd.1 then
    ((List.range rows.length).filter (fun i =>
        cf cd.2 (!nonNull.contains cd.1) (dfCell (rows.getD i Json.null) cd.1))).map
      (fun i => VError.failureRecord cd.1 (some i))
  else [VError.failureRecord cd.1 none]

/-- The integer row indices present in a failure-case list (line 115's
`valid_indices`). -/
def intIndices (records : List VError) : List Nat :=
  records.filterMap (fun e => match e with
    | VError.failureRecord _ (some i) => some i
    | _ => none)

/-- `df.duplicated(subset=keys).any()`: two distinct row positions agree
on every key column (pandas treats missing cells as equal, as does the
`none == none` case here). -/
def dupAny (rows : List Json) (keys : List String) : Bool :=
  (List.range rows.length).any (fun i => (List.range rows.length).any (fun j =>
    decide (i < j) && keys.all (fun k =>
      dfCell (rows.getD i Json.null) k == dfCell (rows.getD j Json.null) k)))

/-- pandas dtype inference behind `infer_dtype` (lines 22-32), for cells
coming from integer-numbered JSON: an all-integer column is `int64`, an
integer column with missing cells is `float64`, an all-boolean column is
`bool`, anything else falls through to `string` (raw JSON never yields a
datetime64 column). -/
def inferDtype (cells : List (Option Json)) : SDtype :=
  if cells.all (fun c => match c with | some (Json.num _) => true | _ => false) then
    SDtype.int
  else if cells.all (fun c => match c with
      | some (Json.num _) => true
      | some Json.null => true
      | none => true
      | _ => false) then
    SDtype.float
  else if cells.all (fun c => match c with | some (Json.bool _) => true | _ => false) then
    SDtype.bool
  else SDtype.string

/-- `infer_schema` (lines 34-43) on the first-100-rows sample: every
column of the frame, its inferred dtype from the sample's cells, and an
empty validation sub-object. -/
def infer_schema (rows : List Json) : SchemaCfg :=
  let sample := rows.take 100
  let cols := dfCols rows
  ⟨cols, cols.map (fun c => (c, inferDtype (sample.map (fun r => dfCell r c)))),
    ⟨[], []⟩⟩

/-- The dtype lookup of lines 101-102: each required column's declared
dtype, a missing entry raising a KeyError. -/
def dtypeSpecs (sc : SchemaCfg) : Except Unit (List (String × SDtype)) :=
  exceptMap (fun c =>
    match sc.dtypes.lookup c with
    | some d => Except.ok (c, d)
    | none => Except.error ()) sc.required_columns

/-- The `(valid_rows, invalid_rows)` computation of lines 108-126: no
failure cases means every row validated; otherwise the distinct integer
indices among the failure cases count as the invalid rows, and a failure
list without integer indices (a missing required column) marks every row
invalid. -/
def invalidCounts (records : List VError) (n : Nat) : Nat × Nat :=
  if records.isEmpty then (n, 0)
  else
    let idxs := (intIndices records).dedup
    if idxs.length > 0 then (n - idxs.length, idxs.length) else (0, n)

/-- The unique-keys check of lines 133-136: skipped for an empty declared
key list; a declared key column absent from the frame raises (KeyError
inside `df.duplicated`); otherwise one error is appended when the key set
has duplicate rows. -/
def dupCheck (rows : List Json) (cols : List String) (uniqueKeys : List String) :
    Except Unit (List VError) :=
  match uniqueKeys with
  | [] => Except.ok []
  | ks =>
      if ks.any (fun k => !cols.contains k) then Except.error ()
      else Except.ok (if dupAny rows ks then [VError.dupKeys ks] else [])

/-- The non-null check of lines 138-140: for each declared non-null field
in order, a missing column raises (KeyError at `df[field]`), and a field
with any null cell appends one error. -/
def nullChecks (rows : List Json) (cols : List String) (nonNull : List String) :
    Except Unit (List (List VError)) :=
  exceptMap (fun f =>
    if !cols.contains f then Except.error ()
    else Except.ok
      (if (List.range rows.length).any (fun i =>
          cellIsNull (dfCell (rows.getD i Json.null) f)) then
        [VError.nullField f]
      else [])) nonNull

/-- `validate_schema` (schema_validator.py lines 54-150) with the config
already parsed and the raw pages already read in sorted file order.  The
`Except` models Python exceptions escaping the function: a non-dict
record (DataFrame construction), a required column missing from
`schema.dtypes` (KeyError at line 102), or a declared unique-key /
non-null column absent from the frame (KeyError at lines 135 and 139). -/
def validate_schema (cf : CellCheck) (schemaCfg : Option SchemaCfg)
    (pages : List Json) : Except Unit VReport :=
  let allRows := loadRows pages
  if allRows.isEmpty then
    .ok ⟨0, 0, [VError.noData], none⟩
  else if !(allRows.all Json.isObj) then
    .error ()
  else
    match schemaCfg with
    | some sc => do
        let colSpecs ← dtypeSpecs sc
        let nonNull := sc.validation.non_null_fields
        let n := allRows.length
        let cols := dfCols allRows
        let records := colSpecs.flatMap (colRecords cf allRows cols nonNull)
        let counts := invalidCounts records n
        if !records.isEmpty && (counts.2 : Rat) / (n : Rat) > 5 / 100 then
          .ok ⟨counts.1, counts.2, records, none⟩
        else do
          let dupErrs ← dupCheck allRows cols sc.validation.unique_keys
          let nullErrs ← nullChecks allRows cols nonNull
          .ok ⟨counts.1, counts.2, records ++ dupErrs ++ nullErrs.flatten, none⟩
    | none =>
        let inferred := infer_schema allRows
        .ok ⟨allRows.length, 0, [], some inferred⟩

/-
  ===== Loader: src/loaders/postgres_loader.py =====

  The database is abstracted behind `LoadOps`: each SQL-touching helper
  (`_create_pipeline_monitor_table`, `transform_data`,
  `_create_analytics_table`, `_upsert_data`, `_log_pipeline_run`) is a
  fallible operation whose outcome is a parameter, and the trace of
  operations actually performed is returned alongside the result.  This
  mirrors the control flow of `load_to_postgres` exactly: the try body
  from engine creation onwards, and the except block that best-effort
  writes a failed ledger entry and re-raises the original error.
-/

/-- One row of the `pipeline_monitor` run ledger (loader lines 139-158);
the duration and creation-timestamp columns are not tracked since no
claim mentions them. -/
structure RunEntry where
  run_id : String
  dag_id : String
  run_date : String
  rows_processed : Nat
  status : String
  error_message : Option String
  deriving Repr, DecidableEq

/-- The dict returned by `load_to_postgres` on success (lines 225-230),
without the duration field. -/
structure LoadResult where
  run_id : String
  rows_processed : Nat
  status : String
  deriving Repr, DecidableEq

/-- Observable side effects of one `load_to_postgres` invocation. -/
inductive LCall where
  | monitorCreated
  | tableCreated
  | upserted (rows : Nat)
  | logged (e : RunEntry)
  deriving Repr, DecidableEq

/-- The slice of the parsed config consumed by the loader (lines
182-184). -/
structure LoadCfg where
  name : String
  unique_keys : List String
  deriving Repr, DecidableEq

/-- Outcomes of the loader's fallible collaborators for one invocation:
engine creation, monitor-table creation, the transformer, destination
table creation, the data write, and the ledger write (per entry). -/
structure LoadOps where
  engine : Except String Unit
  monitor : Except String Unit
  transformed : Except String TFrame
  createTable : Except String Unit
  upsert : TFrame → Except String Nat
  ledger : RunEntry → Except String Unit

/-- The failed ledger entry written by the except block (line 240):
zero rows, status `failed`, carrying the original error message. -/
def failedEntry (runId apiName executionDate msg : String) : RunEntry :=
  ⟨runId, apiName, executionDate, 0, "failed", some msg⟩

/-- A success ledger entry (lines 200 and 221). -/
def successEntry (runId apiName executionDate : String) (rows : Nat) : RunEntry :=
  ⟨runId, apiName, executionDate, rows, "success", none⟩

/-- The best-effort ledger write of the except block (lines 238-242): a
failure of the write itself is swallowed and leaves no trace. -/
def attemptLog (ops : LoadOps) (e : RunEntry) : List LCall :=
  match ops.ledger e with
  | .ok _ => [LCall.logged e]
  | .error _ => []

/-- The `run_date` injection of lines 212-213 (delete-then-insert
strategy only). -/
def addRunDate (F : TFrame) (executionDate : String) : TFrame :=
  ⟨F.cols ++ ["run_date"], F.rows.map (fun r => r ++ [Value.str executionDate])⟩

/-- The try body of `load_to_postgres` after engine creation (lines
190-230): either a result with the trace of performed operations, or the
first raised error with the trace up to that point. -/
def loadAttempt (ops : LoadOps) (cfg : LoadCfg) (runId executionDate : String) :
    Except (String × List LCall) (LoadResult × List LCall) :=
  match ops.monitor with
  | .error e => .error (e, [])
  | .ok _ =>
    match ops.transformed with
    | .error e => .error (e, [LCall.monitorCreated])
    | .ok df =>
      if df.rows.isEmpty then
        match ops.ledger (successEntry runId cfg.name executionDate 0) with
        | .ok _ =>
            .ok (⟨runId, 0, "success"⟩,
              [LCall.monitorCreated,
               LCall.logged (successEntry runId cfg.name executionDate 0)])
        | .error e => .error (e, [LCall.monitorCreated])
      else
        match ops.createTable with
        | .error e => .error (e, [LCall.monitorCreated])
        | .ok _ =>
          let df2 := if cfg.unique_keys.isEmpty && !df.cols.contains "run_date" then
            addRunDate df executionDate else df
          match ops.upsert df2 with
          | .error e => .error (e, [LCall.monitorCreated, LCall.tableCreated])
          | .ok rows =>
            match ops.ledger (successEntry runId cfg.name executionDate rows) with
            | .ok _ =>
                .ok (⟨runId, rows, "success"⟩,
                  [LCall.monitorCreated, LCall.tableCreated, LCall.upserted rows,
                   LCall.logged (successEntry runId cfg.name executionDate rows)])
            | .error e =>
                .error (e, [LCall.monitorCreated, LCall.tableCreated,
                  LCall.upserted rows])

/-- `load_to_postgres` (loader lines 163-244): engine creation, then the
try body; on a raised error the except block appends the best-effort
failed ledger entry and re-raises the original error.  When engine
creation itself failed, no ledger write is attempted (`engine` is not in
scope in the except block). -/
def load_to_postgres (ops : LoadOps) (cfg : LoadCfg) (runId executionDate : String) :
    Except String LoadResult × List LCall :=
  match ops.engine with
  | .error e => (.error e, [])
  | .ok _ =>
    match loadAttempt ops cfg runId executionDate with
    | .ok (r, trace) => (.ok r, trace)
    | .error (e, trace) =>
        (.error e, trace ++ attemptLog ops (failedEntry runId cfg.name executionDate e))

/-- The first error raised inside the try body, in program order: the
monitor-table creation, the transform, then — empty frame — the
zero-rows success ledger write, or — non-empty frame — the destination
table creation, the data write and the success ledger write. -/
def loadFirstError (ops : LoadOps) (cfg : LoadCfg) (runId executionDate : String) :
    Option String :=
  match ops.monitor with
  | .error e => some e
  | .ok _ =>
    match ops.transformed with
    | .error e => some e
    | .ok df =>
      if df.rows.isEmpty then
        match ops.ledger (successEntry runId cfg.name executionDate 0) with
        | .error e => some e
        | .ok _ => none
      else
        match ops.createTable with
        | .error e => some e
        | .ok _ =>
          let df2 := if cfg.unique_keys.isEmpty && !df.cols.contains "run_date" then
            addRunDate df executionDate else df
          match ops.upsert df2 with
          | .error e => some e
          | .ok rows =>
            match ops.ledger (successEntry runId cfg.name executionDate rows) with
            | .error e => some e
            | .ok _ => none

/-
  ===== Theorems =====
-/

/-- C6: for every (api, logical date) whose raw page store contains no
rows, `validate_schema` returns the report with `valid_rows = 0`,
`invalid_rows = 0` and exactly the single benign error marker, whose
rendered text is the literal `"No data found."`; no exception is raised
and the report carries nothing else (in particular no inferred schema). -/
theorem validate_schema_empty_store_report (cf : CellCheck)
    (schemaCfg : Option SchemaCfg) (pages : List Json)
    (h : loadRows pages = []) :
    validate_schema cf schemaCfg pages =
      .ok ⟨0, 0, [VError.noData], none⟩ ∧
    (VReport.mk 0 0 [VError.noData] none).errors.map VError.render =
      ["No data found."] := by
  refine ⟨?_, rfl⟩
  simp only [validate_schema, h]
  rfl

/-- C6 witness: the empty page store. -/
theorem validate_schema_empty_store_report_witness :
    validate_schema (fun _ _ _ => false) none [] =
      .ok ⟨0, 0, [VError.noData], none⟩ ∧
    (VReport.mk 0 0 [VError.noData] none).errors.map VError.render =
      ["No data found."] :=
  validate_schema_empty_store_report (fun _ _ _ => false) none [] rfl

/-- C8: when the transformer's frame is empty, `load_to_postgres` writes
a success ledger entry with zero rows processed and returns a success
result; the trace shows exactly the monitor-table setup and that single
ledger write — no destination-table creation and no data write. -/
theorem load_to_postgres_empty_frame_success (ops : LoadOps) (cfg : LoadCfg)
    (runId executionDate : String) (F : TFrame)
    (heng : ops.engine = .ok ()) (hmon : ops.monitor = .ok ())
    (htr : ops.transformed = .ok F) (hemp : F.rows = [])
    (hlog : ops.ledger (successEntry runId cfg.name executionDate 0) = .ok ()) :
    load_to_postgres ops cfg runId executionDate =
      (.ok ⟨runId, 0, "success"⟩,
       [LCall.monitorCreated,
        LCall.logged (successEntry runId cfg.name executionDate 0)]) := by
  unfold load_to_postgres loadAttempt
  rw [heng, hmon, htr]
  simp [hemp, hlog]

/-- C8 witness: concrete collaborators with an empty transformed frame. -/
theorem load_to_postgres_empty_frame_success_witness :
    load_to_postgres
      ⟨.ok (), .ok (), .ok ⟨["a"], []⟩, .ok (), fun _ => .ok 0, fun _ => .ok ()⟩
      ⟨"api", []⟩ "r1" "2024-06-10" =
      (.ok ⟨"r1", 0, "success"⟩,
       [LCall.monitorCreated,
        LCall.logged (successEntry "r1" "api" "2024-06-10" 0)]) :=
  load_to_postgres_empty_frame_success
    ⟨.ok (), .ok (), .ok ⟨["a"], []⟩, .ok (), fun _ => .ok 0, fun _ => .ok ()⟩
    ⟨"api", []⟩ "r1" "2024-06-10" ⟨["a"], []⟩ rfl rfl rfl rfl rfl

/-- Auxiliary for C7: an error reported by `loadFirstError` is exactly an
error raised by the try body `loadAttempt`, with some trace. -/
theorem loadAttempt_error_of_firstError (ops : LoadOps) (cfg : LoadCfg)
    (runId executionDate e : String)
    (herr : loadFirstError ops cfg runId executionDate = some e) :
    ∃ tr, loadAttempt ops cfg runId executionDate = .error (e, tr) := by
  unfold loadFirstError at herr
  unfold loadAttempt
  rcases hm : ops.monitor with e1 | u
  · simp only [hm] at herr ⊢
    exact ⟨[], by simp_all⟩
  · simp only [hm] at herr ⊢
    rcases ht : ops.transformed with e2 | df
    · simp only [ht] at herr ⊢
      exact ⟨[LCall.monitorCreated], by simp_all⟩
    · simp only [ht] at herr ⊢
      by_cases hdf : df.rows.isEmpty
      · simp only [hdf, if_true] at herr ⊢
        rcases hl : ops.ledger (successEntry runId cfg.name executionDate 0) with e3 | u3
        · simp only [hl] at herr ⊢
          exact ⟨[LCall.monitorCreated], by simp_all⟩
        · simp only [hl] at herr
          exact absurd herr (by simp)
      · simp only [hdf, if_false] at herr ⊢
        rcases hc : ops.createTable with e4 | u4
        · simp only [hc] at herr ⊢
          exact ⟨[LCall.monitorCreated], by simp_all⟩
        · simp only [hc] at herr ⊢
          rcases hu : ops.upsert (if cfg.unique_keys.isEmpty && !df.cols.contains "run_date" then
              addRunDate df executionDate else df) with e5 | rows
          · simp only [hu] at herr ⊢
            exact ⟨[LCall.monitorCreated, LCall.tableCreated], by simp_all⟩
          · simp only [hu] at herr ⊢
            rcases hl2 : ops.ledger (successEntry runId cfg.name executionDate rows) with e6 | u6
            · simp only [hl2] at herr ⊢
              exact ⟨[LCall.monitorCreated, LCall.tableCreated, LCall.upserted rows],
                by simp_all⟩
            · simp only [hl2] at herr
              exact absurd herr (by simp)

/-- C7: whenever any step of the try body fails after the database engine
was created, the loader's result is the original error — never silently
swallowed — and, when the best-effort write of the failed ledger entry
(which carries that error message) itself succeeds, that entry appears in
the trace; the ledger write's own failure does not replace the original
error. -/
theorem load_to_postgres_failure_propagates (ops : LoadOps) (cfg : LoadCfg)
    (runId executionDate e : String)
    (heng : ops.engine = .ok ())
    (herr : loadFirstError ops cfg runId executionDate = some e) :
    (load_to_postgres ops cfg runId executionDate).1 = .error e ∧
    (ops.ledger (failedEntry runId cfg.name executionDate e) = .ok () →
      LCall.logged (failedEntry runId cfg.name executionDate e) ∈
        (load_to_postgres ops cfg runId executionDate).2) := by
  obtain ⟨tr, htr⟩ :=
    loadAttempt_error_of_firstError ops cfg runId executionDate e herr
  unfold load_to_postgres
  rw [heng, htr]
  refine ⟨rfl, fun hl => ?_⟩
  simp [attemptLog, hl]

/-- Concrete collaborators for the C7 witness: a failing data write, a
working ledger. -/
def opsBoom : LoadOps :=
  ⟨.ok (), .ok (), .ok ⟨["a"], [[Value.num 1]]⟩, .ok (),
   fun _ => .error "boom", fun _ => .ok ()⟩

/-- C7 witness: a failing data write with a working ledger. -/
theorem load_to_postgres_failure_propagates_witness :
    (load_to_postgres opsBoom ⟨"api", ["a"]⟩ "r1" "2024-06-10").1 =
      .error "boom" ∧
    (opsBoom.ledger (failedEntry "r1" "api" "2024-06-10" "boom") = .ok () →
      LCall.logged (failedEntry "r1" "api" "2024-06-10" "boom") ∈
        (load_to_postgres opsBoom ⟨"api", ["a"]⟩ "r1" "2024-06-10").2) :=
  load_to_postgres_failure_propagates opsBoom ⟨"api", ["a"]⟩ "r1" "2024-06-10"
    "boom" rfl rfl

/-- Auxiliary for C9: the page-strategy loop sleeps exactly the
configured sleep time after each persisted page (when positive), and
never sleeps when the sleep time is zero. -/
theorem extractPage_sleeps (server : Nat → Json) (st : Rat) :
    ∀ fuel pageNum, (extractPage server st fuel pageNum).2 =
      if st > 0 then
        List.replicate (extractPage server st fuel pageNum).1.length st
      else []
  | 0, _ => by
      simp [extractPage]
  | fuel + 1, pageNum => by
      have ih := extractPage_sleeps server st fuel (pageNum + 1)
      by_cases h : (server pageNum).truthy
      · simp only [extractPage, h, Bool.not_true, Bool.false_eq_true, if_false]
        rw [ih]
        by_cases hst : st > 0
        · simp [hst, List.replicate_succ]
        · simp [hst]
      · simp [extractPage, h]

/-- C9 counterexample: with no `requests_per_minute` configured the code
does not sleep 0 seconds between iterations — the key defaults to 60
(api_adapter.py line 35), so the loop sleeps 1 second after the one
persisted page. -/
theorem extract_rate_limit_counterexample :
    sleepTimeOf none = 1 ∧ (1 : Rat) ≠ 0 ∧
    (extractPage
      (fun p => if p = 1 then Json.arr [Json.obj [("id", Json.num 1)]] else Json.arr [])
      (sleepTimeOf none) 5 1).2 = [1] := by
  have h1 : sleepTimeOf none = 1 := by norm_num [sleepTimeOf]
  refine ⟨h1, by norm_num, ?_⟩
  rw [h1]
  have h2 := extractPage_sleeps
    (fun p => if p = 1 then Json.arr [Json.obj [("id", Json.num 1)]] else Json.arr [])
    1 5 1
  rw [h2]
  norm_num
  rfl

/-- C9 amended: between successive fetch iterations when more pages
remain, the loop sleeps exactly `60 / requests_per_minute` seconds; when
`requests_per_minute` is not configured it defaults to 60, so the sleep
is 1 second (not 0); a zero sleep happens only for an explicitly falsy
configured value. -/
theorem extract_rate_limit_amended (rpmCfg : Option Nat)
    (server : Nat → Json) (fuel pageNum : Nat) :
    (∀ r : Nat, rpmCfg = some r → r ≠ 0 → sleepTimeOf rpmCfg = 60 / (r : Rat)) ∧
    ((extractPage server (sleepTimeOf rpmCfg) fuel pageNum).2 =
      if sleepTimeOf rpmCfg > 0 then
        List.replicate
          (extractPage server (sleepTimeOf rpmCfg) fuel pageNum).1.length
          (sleepTimeOf rpmCfg)
      else []) ∧
    (rpmCfg = none → sleepTimeOf rpmCfg = 1) := by
  refine ⟨?_, extractPage_sleeps server (sleepTimeOf rpmCfg) fuel pageNum, ?_⟩
  · intro r hr hne
    subst hr
    simp [sleepTimeOf, hne]
  · intro h
    subst h
    norm_num [sleepTimeOf]

/-- C9 amended witness: 120 requests per minute. -/
theorem extract_rate_limit_amended_witness :
    sleepTimeOf (some 120) = 60 / (120 : Rat) ∧
    (extractPage (fun _ => Json.arr []) (sleepTimeOf (some 120)) 5 1).2 =
      (if sleepTimeOf (some 120) > 0 then
        List.replicate
          (extractPage (fun _ => Json.arr []) (sleepTimeOf (some 120)) 5 1).1.length
          (sleepTimeOf (some 120))
      else []) :=
  ⟨(extract_rate_limit_amended (some 120) (fun _ => Json.arr []) 5 1).1 120 rfl
      (by decide),
   (extract_rate_limit_amended (some 120) (fun _ => Json.arr []) 5 1).2.1⟩

/-- C5: for every input — including an empty raw page set — the
transformer's output columns are exactly the mapped target names in
config declaration order, then `ingestion_timestamp`, then `source`; on
an empty page set the result is that zero-row header rather than a
failure. -/
theorem transform_data_column_order (pdt : DtParse) (nowUtc : Int)
    (apiName : String) (mappings : List Mapping) (pages : List Json)
    (F : TFrame) (inv : List (List (String × Json))) :
    (loadRows pages = [] →
      transform_data pdt nowUtc apiName mappings pages =
        .ok (⟨(mappings.map (fun m => m.target)) ++ [ingestionCol, sourceCol],
          []⟩, [])) ∧
    (transform_data pdt nowUtc apiName mappings pages = .ok (F, inv) →
      F.cols = (mappings.map (fun m => m.target)) ++ [ingestionCol, sourceCol]) := by
  constructor
  · intro h
    simp [transform_data, h]
  · intro h
    simp only [transform_data] at h
    cases hr : (loadRows pages).isEmpty with
    | true =>
        rw [hr] at h
        simp only [if_true] at h
        simp only [Except.ok.injEq, Prod.mk.injEq] at h
        obtain ⟨hF, _⟩ := h
        rw [← hF]
    | false =>
        rw [hr] at h
        simp only [Bool.false_eq_true, if_false] at h
        rcases hf : flattenAll (loadRows pages) with u | flat
        · rw [hf] at h
          simp [Bind.bind, Except.bind] at h
        · rw [hf] at h
          simp only [Bind.bind, Except.bind] at h
          rcases hc : convertedCols pdt flat mappings with u | cols
          · rw [hc] at h
            simp at h
          · rw [hc] at h
            simp only [Except.ok.injEq, Prod.mk.injEq] at h
            obtain ⟨hF, _⟩ := h
            rw [← hF]

/-- C5 witness: the empty page set for one string mapping. -/
theorem transform_data_column_order_witness :
    transform_data (fun _ _ => none) 0 "api"
        [⟨"a", "b", MapType.string, none, none, none⟩] [] =
      .ok (⟨["b", ingestionCol, sourceCol], []⟩, []) ∧
    (TFrame.mk ["b", ingestionCol, sourceCol] []).cols =
      ["b", ingestionCol, sourceCol] :=
  ⟨(transform_data_column_order (fun _ _ => none) 0 "api"
      [⟨"a", "b", MapType.string, none, none, none⟩] []
      ⟨["b", ingestionCol, sourceCol], []⟩ []).1 rfl,
   (transform_data_column_order (fun _ _ => none) 0 "api"
      [⟨"a", "b", MapType.string, none, none, none⟩] []
      ⟨["b", ingestionCol, sourceCol], []⟩ []).2 (by rfl)⟩

/-- Lookup after the overwrite branch of `setField` at the written key. -/
theorem lookup_overwrite (k : String) (v : Value) :
    ∀ r : List (String × Value),
      (r.map (fun p => if p.1 == k then (k, v) else p)).lookup k =
        if r.any (fun p => p.1 == k) then some v else none
  | [] => by simp
  | (k1, v1) :: rest => by
      simp only [List.map_cons, List.any_cons]
      by_cases hk : k1 = k
      · subst hk
        simp [List.lookup_cons]
      · have h1 : (k1 == k) = false := beq_false_of_ne hk
        have h2 : (k == k1) = false := beq_false_of_ne (Ne.symm hk)
        simp only [h1, Bool.false_eq_true, if_false, List.lookup_cons, h2,
          Bool.false_or]
        exact lookup_overwrite k v rest

/-- Lookup of a key appended to a row that does not contain it. -/
theorem lookup_append_single (k : String) (v : Value) :
    ∀ r : List (String × Value), r.any (fun p => p.1 == k) = false →
      (r ++ [(k, v)]).lookup k = some v
  | [], _ => by simp [List.lookup_cons]
  | (k1, v1) :: rest, h => by
      simp only [List.any_cons, Bool.or_eq_false_iff] at h
      have hk : ¬ (k1 = k) := by
        intro he
        rw [he] at h
        simp at h
      have h2 : (k == k1) = false := beq_false_of_ne (Ne.symm hk)
      simp only [List.cons_append, List.lookup_cons, h2]
      exact lookup_append_single k v rest h.2

/-- `getField` after `setField` at the written key. -/
theorem getField_setField_self (r : List (String × Value)) (k : String)
    (v : Value) : getField (setField r k v) k = v := by
  unfold setField getField
  by_cases h : r.any (fun p => p.1 == k)
  · rw [if_pos h, lookup_overwrite, if_pos h]
    rfl
  · rw [if_neg h, lookup_append_single k v r (Bool.eq_false_iff.mpr h)]
    rfl

/-- Lookup after the overwrite branch of `setField` at a different key. -/
theorem lookup_overwrite_ne (k n : String) (v : Value) (h : n ≠ k) :
    ∀ r : List (String × Value),
      (r.map (fun p => if p.1 == k then (k, v) else p)).lookup n = r.lookup n
  | [] => by simp
  | (k1, v1) :: rest => by
      simp only [List.map_cons]
      by_cases hk : k1 = k
      · subst hk
        have h2 : (n == k1) = false := beq_false_of_ne h
        simp only [beq_self_eq_true, if_true, List.lookup_cons, h2]
        exact lookup_overwrite_ne k1 n v h rest
      · have h1 : (k1 == k) = false := beq_false_of_ne hk
        simp only [h1, Bool.false_eq_true, if_false, List.lookup_cons]
        cases hn : (n == k1) with
        | true => rfl
        | false => exact lookup_overwrite_ne k n v h rest

/-- Lookup past an appended foreign key. -/
theorem lookup_append_single_ne (k n : String) (v : Value) (h : n ≠ k) :
    ∀ r : List (String × Value), (r ++ [(k, v)]).lookup n = r.lookup n
  | [] => by
      simp only [List.nil_append, List.lookup_cons, beq_false_of_ne h]
  | (k1, v1) :: rest => by
      simp only [List.cons_append, List.lookup_cons]
      cases hn : (n == k1) with
      | true => rfl
      | false => exact lookup_append_single_ne k n v h rest

/-- `getField` after `setField` at a different key. -/
theorem getField_setField_ne (r : List (String × Value)) (k n : String)
    (v : Value) (h : n ≠ k) : getField (setField r k v) n = getField r n := by
  unfold setField getField
  by_cases hany : r.any (fun p => p.1 == k)
  · rw [if_pos hany, lookup_overwrite_ne k n v h]
  · rw [if_neg hany, lookup_append_single_ne k n v h]

/-- Dropping one named column from an output frame: the column header
loses the name and every row loses the corresponding positions. -/
def eraseCol (F : TFrame) (name : String) : TFrame :=
  ⟨F.cols.filter (fun c => c != name),
   F.rows.map (fun r =>
     ((F.cols.zip r).filter (fun p => p.1 != name)).map (fun p => p.2))⟩

/-- Zipping a list with its own image. -/
theorem zip_self_map (g : String → Value) :
    ∀ names : List String, names.zip (names.map g) = names.map (fun n => (n, g n))
  | [] => rfl
  | n :: ns => by
      simp only [List.map_cons, List.zip_cons_cons, List.cons.injEq]
      exact ⟨trivial, zip_self_map g ns⟩

/-- Erasing one column of a row assembled by header selection. -/
theorem eraseRow_eq (names : List String) (g : String → Value) (nm : String) :
    ((names.zip (names.map g)).filter (fun p => p.1 != nm)).map (fun p => p.2) =
      (names.filter (fun c => c != nm)).map g := by
  rw [zip_self_map g names, List.filter_map, List.map_map]
  rfl

/-- Auxiliary for C1: any column other than the injected timestamp reads
the same value from a metadata-augmented row whatever the wall clock. -/
theorem getField_meta_ne (r : List (String × Value)) (apiName : String)
    (t1 t2 : Int) (n : String) (h : n ≠ ingestionCol) :
    getField (setField (setField r ingestionCol (Value.dt t1)) sourceCol
        (Value.str apiName)) n =
      getField (setField (setField r ingestionCol (Value.dt t2)) sourceCol
        (Value.str apiName)) n := by
  by_cases hs : n = sourceCol
  · subst hs
    rw [getField_setField_self, getField_setField_self]
  · rw [getField_setField_ne _ _ _ _ hs, getField_setField_ne _ _ _ _ hs,
      getField_setField_ne _ _ _ _ h, getField_setField_ne _ _ _ _ h]

/-- Auxiliary for C1: erasing the timestamp column from an assembled
output row leaves a row independent of the wall clock. -/
theorem eraseRow_meta_time (names : List String) (r : List (String × Value))
    (apiName : String) (t1 t2 : Int) :
    ((names.zip (names.map (getField (setField
        (setField r ingestionCol (Value.dt t1)) sourceCol
        (Value.str apiName))))).filter
          (fun p => p.1 != ingestionCol)).map (fun p => p.2) =
      ((names.zip (names.map (getField (setField
        (setField r ingestionCol (Value.dt t2)) sourceCol
        (Value.str apiName))))).filter
          (fun p => p.1 != ingestionCol)).map (fun p => p.2) := by
  rw [eraseRow_eq, eraseRow_eq]
  apply List.map_congr_left
  intro n hn
  apply getField_meta_ne
  have hmem := List.mem_filter.mp hn
  simpa using hmem.2

/-- C1 counterexample: the transform output is not a pure function of the
page set and config alone — the injected `ingestion_timestamp` column is
the wall clock at transform time (data_transformer.py line 121), so two
runs over the identical page set at different instants differ cell-wise. -/
theorem transform_data_wall_clock_counterexample :
    transform_data (fun _ _ => none) 0 "api"
        [⟨"a", "b", MapType.string, none, none, none⟩]
        [Json.arr [Json.obj [("a", Json.str "x")]]] =
      .ok (⟨["b", ingestionCol, sourceCol],
        [[Value.str "x", Value.dt 0, Value.str "api"]]⟩, []) ∧
    transform_data (fun _ _ => none) 1 "api"
        [⟨"a", "b", MapType.string, none, none, none⟩]
        [Json.arr [Json.obj [("a", Json.str "x")]]] =
      .ok (⟨["b", ingestionCol, sourceCol],
        [[Value.str "x", Value.dt 1, Value.str "api"]]⟩, []) ∧
    (TFrame.mk ["b", ingestionCol, sourceCol]
        [[Value.str "x", Value.dt 0, Value.str "api"]] ≠
      TFrame.mk ["b", ingestionCol, sourceCol]
        [[Value.str "x", Value.dt 1, Value.str "api"]]) := by
  have hflat : flattenAll (loadRows [Json.arr [Json.obj [("a", Json.str "x")]]]) =
      .ok [[("a", Json.str "x")]] := by
    simp only [loadRows, flattenAll, exceptMap, flattenFields]
    rfl
  refine ⟨?_, ?_, by decide⟩
  · simp only [transform_data]
    rw [hflat]
    rfl
  · simp only [transform_data]
    rw [hflat]
    rfl

/-- C1 amended: the transform output is a pure function of the page set
and config except for the injected `ingestion_timestamp` column: erasing
that column makes two runs at any two wall-clock instants identical —
same success/failure, same column order, same invalid-row side channel,
and every remaining cell equal. -/
theorem transform_data_time_independent (pdt : DtParse) (apiName : String)
    (mappings : List Mapping) (pages : List Json) (t1 t2 : Int) :
    (transform_data pdt t1 apiName mappings pages).map
        (fun p => (eraseCol p.1 ingestionCol, p.2)) =
      (transform_data pdt t2 apiName mappings pages).map
        (fun p => (eraseCol p.1 ingestionCol, p.2)) := by
  simp only [transform_data]
  cases hr : (loadRows pages).isEmpty with
  | true => rfl
  | false =>
      simp only [hr, Bool.false_eq_true, if_false]
      rcases hf : flattenAll (loadRows pages) with u | flat
      · simp [Bind.bind, Except.bind]
      · simp only [Bind.bind, Except.bind]
        rcases hc : convertedCols pdt flat mappings with u | cols
        · rfl
        · simp only [Except.map]
          refine congrArg Except.ok ?_
          refine congrArg (fun x => (x, maskKeep flat (maskOf cols flat.length))) ?_
          unfold eraseCol
          simp only [List.map_map]
          refine congrArg (TFrame.mk _) ?_
          apply List.map_congr_left
          intro r hr2
          simp only [Function.comp]
          exact eraseRow_meta_time
            ((mappings.map (fun m => m.target)) ++ [ingestionCol, sourceCol])
            r apiName t1 t2

/-- C10 counterexample: a string-typed mapping whose source column is
present in the flattened row set can still convert to null and drop the
row — a present cell holding a JSON null becomes `NA` under
`astype(string)` (data_transformer.py line 49), the row is excluded from
the output and lands in the invalid side channel. -/
theorem string_null_cell_counterexample :
    colPresent [[("a", Json.null)]] "a" = true ∧
    transform_data (fun _ _ => none) 0 "api"
        [⟨"a", "b", MapType.string, none, none, none⟩]
        [Json.arr [Json.obj [("a", Json.null)]]] =
      .ok (⟨["b", ingestionCol, sourceCol], []⟩, [[("a", Json.null)]]) := by
  refine ⟨rfl, ?_⟩
  have hflat : flattenAll (loadRows [Json.arr [Json.obj [("a", Json.null)]]]) =
      .ok [[("a", Json.null)]] := by
    simp only [loadRows, flattenAll, exceptMap, flattenFields]
    rfl
  simp only [transform_data]
  rw [hflat]
  rfl

/-- C10 amended: for a string mapping without scale/offset the conversion
never raises and a converted cell is null exactly when the source cell is
missing from the row or holds a JSON null — so a present non-null cell
never converts to null, but a present null cell does (and such a row is
dropped, as every mapped field is critical). -/
theorem string_conversion_null_iff (pdt : DtParse) (srcName tgtName : String)
    (fmt : Option String) (cells : List (Option Json)) :
    convertSeries pdt ⟨srcName, tgtName, MapType.string, fmt, none, none⟩ cells =
      .ok (cells.map toStringCell) ∧
    (∀ c : Option Json,
      (toStringCell c).isna = true ↔ (c = none ∨ c = some Json.null)) := by
  constructor
  · rfl
  · intro c
    cases c with
    | none => simp [toStringCell, Value.isna]
    | some j =>
        cases j with
        | null => simp [toStringCell, Value.isna]
        | bool b => simp [toStringCell, Value.isna]
        | num n => simp [toStringCell, Value.isna]
        | str s => simp [toStringCell, Value.isna]
        | arr xs => simp [toStringCell, Value.isna]
        | obj fs => simp [toStringCell, Value.isna]

/-- Auxiliary for C4, page strategy: the persisted pages are exactly the
responses up to (and excluding) the first falsy body. -/
theorem extractPage_takeWhile (server : Nat → Json) (st : Rat) :
    ∀ fuel p0, (extractPage server st fuel p0).1 =
      ((List.range fuel).map (fun i => server (p0 + i))).takeWhile Json.truthy
  | 0, p0 => by simp [extractPage]
  | fuel + 1, p0 => by
      rw [List.range_succ_eq_map]
      simp only [List.map_cons, Nat.add_zero, List.map_map]
      by_cases h : (server p0).truthy
      · rw [List.takeWhile_cons_of_pos h]
        simp only [extractPage, h, Bool.not_true, Bool.false_eq_true, if_false]
        congr 1
        rw [extractPage_takeWhile server st fuel (p0 + 1)]
        congr 1
        apply List.map_congr_left
        intro i _
        simp only [Function.comp_apply]
        congr 1
        omega
      · rw [List.takeWhile_cons_of_neg (by simpa using h)]
        simp [extractPage, h]

/-- Auxiliary for C4, cursor strategy: with any fuel left, at least the
first response is persisted (the cursor strategy persists every response,
its terminator included). -/
theorem extractCursor_ne_nil (server : Option Json → Json) (key : String) :
    ∀ fuel cur, 0 < fuel → extractCursor server key fuel cur ≠ []
  | 0, _, h => absurd h (by omega)
  | fuel + 1, cur, _ => by
      simp only [extractCursor]
      exact List.cons_ne_nil _ _

/-- Auxiliary for C4, cursor strategy: every persisted page except the
last carries a present, truthy cursor — the loop continued exactly
because of it. -/
theorem extractCursor_continue (server : Option Json → Json) (key : String) :
    ∀ fuel cur i d,
      (extractCursor server key fuel cur)[i]? = some d →
      i + 1 < (extractCursor server key fuel cur).length →
      linkTruthy (d.get? key) = true
  | 0, cur, i, d => by
      intro h _
      simp [extractCursor] at h
  | fuel + 1, cur, 0, d => by
      intro hget hlen
      simp only [extractCursor, List.getElem?_cons_zero, List.length_cons] at hget hlen
      obtain rfl : server cur = d := Option.some.inj hget
      rcases hc : (server cur).get? key with _ | c
      · rw [hc] at hlen
        simp at hlen
      · by_cases ht : c.truthy
        · simp [linkTruthy, hc, ht]
        · rw [hc] at hlen
          simp [ht] at hlen
  | fuel + 1, cur, i + 1, d => by
      intro hget hlen
      simp only [extractCursor, List.getElem?_cons_succ, List.length_cons] at hget hlen
      rcases hc : (server cur).get? key with _ | c
      · rw [hc] at hget
        simp at hget
      · by_cases ht : c.truthy
        · rw [hc] at hget hlen
          simp only [ht, if_true] at hget hlen
          exact extractCursor_continue server key fuel (some c) i d hget (by omega)
        · rw [hc] at hget
          simp [ht] at hget

/-- Auxiliary for C4, cursor strategy: when the loop halted with fuel to
spare, the last persisted page's cursor is absent or falsy. -/
theorem extractCursor_halt (server : Option Json → Json) (key : String) :
    ∀ fuel cur d,
      (extractCursor server key fuel cur).length < fuel →
      (extractCursor server key fuel cur).getLast? = some d →
      linkTruthy (d.get? key) = false
  | 0, cur, d => by
      intro h _
      simp [extractCursor] at h
  | fuel + 1, cur, d => by
      intro hlen hlast
      simp only [extractCursor, List.length_cons] at hlen hlast
      rcases hc : (server cur).get? key with _ | c
      · rw [hc] at hlast
        simp only [List.getLast?_singleton] at hlast
        obtain rfl : server cur = d := Option.some.inj hlast
        simp [linkTruthy, hc]
      · by_cases ht : c.truthy
        · rw [hc] at hlen hlast
          simp only [ht, if_true] at hlen hlast
          rcases hre : extractCursor server key fuel (some c) with _ | ⟨r1, rt⟩
          · rw [hre] at hlen
            simp only [List.length_nil] at hlen
            exact absurd hre
              (extractCursor_ne_nil server key fuel (some c) (by omega))
          · rw [hre] at hlen hlast
            rw [List.getLast?_cons_cons] at hlast
            have hlen2 : (extractCursor server key fuel (some c)).length < fuel := by
              rw [hre]
              simp only [List.length_cons] at hlen ⊢
              omega
            have hlast2 : (extractCursor server key fuel (some c)).getLast? = some d := by
              rw [hre]
              exact hlast
            exact extractCursor_halt server key fuel (some c) d hlen2 hlast2
        · rw [hc] at hlast
          simp only [ht, Bool.false_eq_true, if_false, List.getLast?_singleton] at hlast
          obtain rfl : server cur = d := Option.some.inj hlast
          simp [linkTruthy, hc, ht]

/-- Auxiliary for C4, next-link strategy: with any fuel left, at least
the first response is persisted. -/
theorem extractNextLink_ne_nil (server : String → Json) (path : List String) :
    ∀ fuel url, 0 < fuel → extractNextLink server path fuel url ≠ []
  | 0, _, h => absurd h (by omega)
  | fuel + 1, url, _ => by
      simp only [extractNextLink]
      exact List.cons_ne_nil _ _

/-- Auxiliary for C4, next-link strategy: every persisted page except the
last carries a present, truthy link — the loop continued by following
it. -/
theorem extractNextLink_continue (server : String → Json) (path : List String) :
    ∀ fuel url i d,
      (extractNextLink server path fuel url)[i]? = some d →
      i + 1 < (extractNextLink server path fuel url).length →
      linkTruthy (walkPath d path) = true
  | 0, url, i, d => by
      intro h _
      simp [extractNextLink] at h
  | fuel + 1, url, 0, d => by
      intro hget hlen
      simp only [extractNextLink, List.getElem?_cons_zero, List.length_cons] at hget hlen
      obtain rfl : server url = d := Option.some.inj hget
      rcases hc : walkPath (server url) path with _ | c
      · rw [hc] at hlen
        simp at hlen
      · rw [hc] at hlen
        cases c with
        | str u =>
            by_cases hu : (Json.str u).truthy
            · simp [linkTruthy, hc, hu]
            · simp [hu] at hlen
        | null => simp at hlen
        | bool b => simp at hlen
        | num n => simp at hlen
        | arr xs => simp at hlen
        | obj fs => simp at hlen
  | fuel + 1, url, i + 1, d => by
      intro hget hlen
      simp only [extractNextLink, List.getElem?_cons_succ, List.length_cons] at hget hlen
      rcases hc : walkPath (server url) path with _ | c
      · rw [hc] at hget
        simp at hget
      · rw [hc] at hget hlen
        cases c with
        | str u =>
            by_cases hu : (Json.str u).truthy
            · simp only [hu, if_true] at hget hlen
              exact extractNextLink_continue server path fuel u i d hget (by omega)
            · simp [hu] at hget
        | null => simp at hget
        | bool b => simp at hget
        | num n => simp at hget
        | arr xs => simp at hget
        | obj fs => simp at hget

/-- Auxiliary for C4, next-link strategy: when the loop halted with fuel
to spare and the server's links are strings whenever truthy, the last
persisted page's link is missing or falsy. -/
theorem extractNextLink_halt (server : String → Json) (path : List String)
    (hstr : ∀ u j, walkPath (server u) path = some j → j.truthy = true →
      j.isStr = true) :
    ∀ fuel url d,
      (extractNextLink server path fuel url).length < fuel →
      (extractNextLink server path fuel url).getLast? = some d →
      linkTruthy (walkPath d path) = false
  | 0, url, d => by
      intro h _
      simp [extractNextLink] at h
  | fuel + 1, url, d => by
      intro hlen hlast
      simp only [extractNextLink, List.length_cons] at hlen hlast
      rcases hc : walkPath (server url) path with _ | c
      · rw [hc] at hlast
        simp only [List.getLast?_singleton] at hlast
        obtain rfl : server url = d := Option.some.inj hlast
        simp [linkTruthy, hc]
      · rw [hc] at hlen hlast
        cases c with
        | str u =>
            by_cases hu : (Json.str u).truthy
            · simp only [hu, if_true] at hlen hlast
              rcases hre : extractNextLink server path fuel u with _ | ⟨r1, rt⟩
              · rw [hre] at hlen
                simp only [List.length_nil] at hlen
                exact absurd hre
                  (extractNextLink_ne_nil server path fuel u (by omega))
              · rw [hre] at hlen hlast
                rw [List.getLast?_cons_cons] at hlast
                have hlen2 : (extractNextLink server path fuel u).length < fuel := by
                  rw [hre]
                  simp only [List.length_cons] at hlen ⊢
                  omega
                have hlast2 : (extractNextLink server path fuel u).getLast? = some d := by
                  rw [hre]
                  exact hlast
                exact extractNextLink_halt server path hstr fuel u d hlen2 hlast2
            · simp only [hu, Bool.false_eq_true, if_false,
                List.getLast?_singleton] at hlast
              obtain rfl : server url = d := Option.some.inj hlast
              simp only [linkTruthy, hc]
              simpa using hu
        | null =>
            simp only [List.getLast?_singleton] at hlast
            obtain rfl : server url = d := Option.some.inj hlast
            simp [linkTruthy, hc, Json.truthy]
        | bool b =>
            simp only [List.getLast?_singleton] at hlast
            obtain rfl : server url = d := Option.some.inj hlast
            have hb := hstr url (Json.bool b) hc
            simp only [linkTruthy, hc]
            cases b with
            | false => simp [Json.truthy]
            | true => simpa [Json.isStr] using hb (by simp [Json.truthy])
        | num n =>
            simp only [List.getLast?_singleton] at hlast
            obtain rfl : server url = d := Option.some.inj hlast
            have hb := hstr url (Json.num n) hc
            simp only [linkTruthy, hc]
            by_cases hn : (Json.num n).truthy
            · simpa [Json.isStr] using hb hn
            · simpa using hn
        | arr xs =>
            simp only [List.getLast?_singleton] at hlast
            obtain rfl : server url = d := Option.some.inj hlast
            have hb := hstr url (Json.arr xs) hc
            simp only [linkTruthy, hc]
            by_cases hn : (Json.arr xs).truthy
            · simpa [Json.isStr] using hb hn
            · simpa using hn
        | obj fs =>
            simp only [List.getLast?_singleton] at hlast
            obtain rfl : server url = d := Option.some.inj hlast
            have hb := hstr url (Json.obj fs) hc
            simp only [linkTruthy, hc]
            by_cases hn : (Json.obj fs).truthy
            · simpa [Json.isStr] using hb hn
            · simpa using hn

/-- C4 counterexample: termination is not exactly the documented
conditions.  A page response of JSON `0` — neither an empty array nor an
empty body — still halts the page loop with nothing persisted (`if not
data` is Python falsiness, api_adapter.py line 101); and a next-link
response whose link is present at the full path but empty (`""`) halts
the next-link loop after one page (`if next_link:` at line 128) even
though no path segment is missing. -/
theorem pagination_termination_counterexample :
    (extractPage (fun _ => Json.num 0) 0 5 1).1 = [] ∧
    extractNextLink (fun _ => Json.obj [("next", Json.str "")]) ["next"] 5 "u" =
      [Json.obj [("next", Json.str "")]] ∧
    walkPath (Json.obj [("next", Json.str "")]) ["next"] =
      some (Json.str "") :=
  ⟨rfl, rfl, rfl⟩

/-- C4 amended: each strategy halts exactly on the code's termination
condition.  Page: the persisted pages are the responses up to the first
falsy body (empty array, empty object/body or other falsy JSON), and the
terminating falsy page is never persisted.  Cursor: a page is followed by
another exactly while its extracted cursor is present and truthy, and a
premature halt means the last page's cursor was absent or falsy.
Next-link: likewise with the dotted-path link, under the assumption that
the server's truthy links are strings (a truthy non-string link makes the
next request raise, which also halts the loop). -/
theorem pagination_termination_amended
    (pageServer : Nat → Json) (st : Rat) (fuelP p0 : Nat)
    (curServer : Option Json → Json) (cursorKey : String) (fuelC : Nat)
    (cur0 : Option Json)
    (linkServer : String → Json) (path : List String) (fuelN : Nat)
    (url0 : String)
    (hstr : ∀ u j, walkPath (linkServer u) path = some j → j.truthy = true →
      j.isStr = true) :
    ((extractPage pageServer st fuelP p0).1 =
        ((List.range fuelP).map (fun i => pageServer (p0 + i))).takeWhile
          Json.truthy ∧
      ∀ d ∈ (extractPage pageServer st fuelP p0).1, d.truthy = true) ∧
    ((∀ i d, (extractCursor curServer cursorKey fuelC cur0)[i]? = some d →
        i + 1 < (extractCursor curServer cursorKey fuelC cur0).length →
        linkTruthy (d.get? cursorKey) = true) ∧
      (∀ d, (extractCursor curServer cursorKey fuelC cur0).length < fuelC →
        (extractCursor curServer cursorKey fuelC cur0).getLast? = some d →
        linkTruthy (d.get? cursorKey) = false)) ∧
    ((∀ i d, (extractNextLink linkServer path fuelN url0)[i]? = some d →
        i + 1 < (extractNextLink linkServer path fuelN url0).length →
        linkTruthy (walkPath d path) = true) ∧
      (∀ d, (extractNextLink linkServer path fuelN url0).length < fuelN →
        (extractNextLink linkServer path fuelN url0).getLast? = some d →
        linkTruthy (walkPath d path) = false)) := by
  refine ⟨⟨extractPage_takeWhile pageServer st fuelP p0, ?_⟩,
    ⟨fun i d hget hlen =>
        extractCursor_continue curServer cursorKey fuelC cur0 i d hget hlen,
      fun d hlen hlast =>
        extractCursor_halt curServer cursorKey fuelC cur0 d hlen hlast⟩,
    ⟨fun i d hget hlen =>
        extractNextLink_continue linkServer path fuelN url0 i d hget hlen,
      fun d hlen hlast =>
        extractNextLink_halt linkServer path hstr fuelN url0 d hlen hlast⟩⟩
  intro d hd
  rw [extractPage_takeWhile pageServer st fuelP p0] at hd
  exact List.mem_takeWhile_imp hd

/-- C4 amended witness: a two-page page-strategy server and a cursor /
next-link server whose first response carries a null link. -/
theorem pagination_termination_amended_witness :
    (extractPage (fun p => if p = 1 then Json.arr [Json.num 7] else Json.arr [])
        0 3 1).1 =
      (((List.range 3).map (fun i =>
        (fun p => if p = 1 then Json.arr [Json.num 7] else Json.arr [])
          (1 + i))).takeWhile Json.truthy) ∧
    linkTruthy ((Json.obj [("next", Json.null)]).get? "next") = false :=
  ⟨(pagination_termination_amended
      (fun p => if p = 1 then Json.arr [Json.num 7] else Json.arr []) 0 3 1
      (fun _ => Json.obj [("next", Json.null)]) "next" 3 none
      (fun _ => Json.obj [("next", Json.null)]) ["next"] 3 "u"
      (fun _ j hj ht => by
        have hjn : Json.null = j := by
          simpa [walkPath, Json.get?] using hj
        rw [← hjn] at ht
        simp [Json.truthy] at ht)).1.1,
   (pagination_termination_amended
      (fun p => if p = 1 then Json.arr [Json.num 7] else Json.arr []) 0 3 1
      (fun _ => Json.obj [("next", Json.null)]) "next" 3 none
      (fun _ => Json.obj [("next", Json.null)]) ["next"] 3 "u"
      (fun _ j hj ht => by
        have hjn : Json.null = j := by
          simpa [walkPath, Json.get?] using hj
        rw [← hjn] at ht
        simp [Json.truthy] at ht)).2.1.2 (Json.obj [("next", Json.null)])
      (by decide) rfl⟩

/-- A successful `exceptMap` preserves the list length. -/
theorem exceptMap_ok_length (f : α → Except ε β) :
    ∀ (l : List α) (ys : List β), exceptMap f l = .ok ys → ys.length = l.length
  | [], ys, h => by
      simp only [exceptMap] at h
      obtain rfl := Except.ok.inj h
      rfl
  | a :: as_, ys, h => by
      simp only [exceptMap, Bind.bind, Except.bind] at h
      rcases hf : f a with e | b
      · rw [hf] at h
        simp at h
      · rw [hf] at h
        rcases hm : exceptMap f as_ with e | bs
        · rw [hm] at h
          simp at h
        · rw [hm] at h
          obtain rfl := Except.ok.inj h
          simp only [List.length_cons]
          rw [exceptMap_ok_length f as_ bs hm]

/-- A successful `_convert_series` base conversion preserves the column
length. -/
theorem convertBase_ok_length (pdt : DtParse) (ty : MapType)
    (fmt : Option String) (cells : List (Option Json)) (vs : List Value)
    (h : convertBase pdt ty fmt cells = .ok vs) : vs.length = cells.length := by
  cases ty with
  | datetime =>
      simp only [convertBase] at h
      obtain rfl := Except.ok.inj h
      simp
  | int =>
      simp only [convertBase] at h
      by_cases hq : (cells.map toNumericCell).any
          (fun q => match q with | some x => x.den != 1 | none => false)
      · rw [if_pos hq] at h
        simp at h
      · rw [if_neg hq] at h
        obtain rfl := Except.ok.inj h
        simp
  | float =>
      simp only [convertBase] at h
      obtain rfl := Except.ok.inj h
      simp
  | bool =>
      simp only [convertBase] at h
      exact exceptMap_ok_length toBoolCell cells vs h
  | string =>
      simp only [convertBase] at h
      obtain rfl := Except.ok.inj h
      simp

/-- Scale application preserves the column length. -/
theorem applyScaleCol_length (ty : MapType) (k : Rat) (vs : List Value) :
    (applyScaleCol ty k vs).length = vs.length := by
  cases ty <;>
    · simp only [applyScaleCol]
      try split
      all_goals simp

/-- Offset application preserves the column length. -/
theorem applyOffsetCol_length (ty : MapType) (k : Rat) (vs : List Value) :
    (applyOffsetCol ty k vs).length = vs.length := by
  cases ty <;> simp [applyOffsetCol]

/-- A successful `_convert_series` preserves the column length. -/
theorem convertSeries_ok_length (pdt : DtParse) (m : Mapping)
    (cells : List (Option Json)) (vs : List Value)
    (h : convertSeries pdt m cells = .ok vs) : vs.length = cells.length := by
  simp only [convertSeries, Bind.bind, Except.bind] at h
  rcases hb : convertBase pdt m.ty m.fmt cells with e | base
  · rw [hb] at h
    simp at h
  · rw [hb] at h
    have hbl := convertBase_ok_length pdt m.ty m.fmt cells base hb
    have hsl : ∀ sc : Option Rat,
        (match sc with
          | some k => applyScaleCol m.ty k base
          | none => base).length = cells.length := by
      intro sc
      rcases sc with _ | k
      · exact hbl
      · rw [applyScaleCol_length]
        exact hbl
    rcases ho : m.offset with _ | k2
    · rw [ho] at h
      obtain rfl := Except.ok.inj h
      exact hsl m.scale
    · rw [ho] at h
      obtain rfl := Except.ok.inj h
      rw [applyOffsetCol_length]
      exact hsl m.scale

/-- Every column produced by a successful `convertedCols` has exactly one
cell per flattened row. -/
theorem convertedCols_ok_length (pdt : DtParse)
    (flat : List (List (String × Json))) :
    ∀ (ms : List Mapping) (cols : List (String × List Value)),
      convertedCols pdt flat ms = .ok cols →
      ∀ c ∈ cols, c.2.length = flat.length
  | [], cols, h => by
      simp only [convertedCols] at h
      obtain rfl := Except.ok.inj h
      intro c hc
      simp at hc
  | m :: ms, cols, h => by
      simp only [convertedCols, Bind.bind, Except.bind] at h
      rcases hv : convertSeries pdt m (flat.map (fun r => r.lookup m.source)) with e | vs
      · rw [hv] at h
        simp at h
      · rw [hv] at h
        rcases hr : convertedCols pdt flat ms with e | rest
        · rw [hr] at h
          simp at h
        · rw [hr] at h
          obtain rfl := Except.ok.inj h
          intro c hc
          rcases List.mem_cons.mp hc with hc1 | hc2
          · subst hc1
            have := convertSeries_ok_length pdt m _ vs hv
            simpa using this
          · exact convertedCols_ok_length pdt flat ms rest hr c hc2

/-- Pointwise reading of a `zipWith` under defaults, for indices inside
both lists. -/
theorem getD_zipWith {α β γ : Type} {f : α → β → γ} (as_ : List α)
    (bs : List β) (i : Nat) (ha : i < as_.length) (hb : i < bs.length)
    (da : α) (db : β) (dc : γ) :
    (List.zipWith f as_ bs).getD i dc = f (as_.getD i da) (bs.getD i db) := by
  have hl : i < (List.zipWith f as_ bs).length := by
    rw [List.length_zipWith]
    exact lt_min ha hb
  rw [List.getD_eq_getElem _ _ hl, List.getD_eq_getElem _ _ ha,
    List.getD_eq_getElem _ _ hb]
  exact List.getElem_zipWith

/-- The row-wise invalid-mask fold keeps the frame length. -/
theorem maskFold_length (n : Nat) :
    ∀ (cols : List (String × List Value)) (acc : List Bool),
      acc.length = n → (∀ c ∈ cols, c.2.length = n) →
      (cols.foldl (fun acc c => acc.zipWith (· || ·) (c.2.map Value.isna))
        acc).length = n
  | [], _, ha, _ => ha
  | c :: cs, acc, ha, hc => by
      simp only [List.foldl_cons]
      apply maskFold_length n cs
      · rw [List.length_zipWith, List.length_map, ha, hc c (by simp)]
        simp
      · intro c2 h2
        exact hc c2 (by simp [h2])

/-- Whether some mapped column converted to `NA` at row `i` — the row is
then invalid (all mapped fields are critical, data_transformer.py line
111). -/
def rowBad (cols : List (String × List Value)) (i : Nat) : Bool :=
  cols.any (fun c => Value.isna (c.2.getD i Value.na))

/-- Reading the accumulated invalid mask at one row: the OR, over the
converted columns, of that row's cell being `NA`. -/
theorem maskFold_getD (n i : Nat) (hi : i < n) :
    ∀ (cols : List (String × List Value)) (acc : List Bool),
      acc.length = n → (∀ c ∈ cols, c.2.length = n) →
      (cols.foldl (fun acc c => acc.zipWith (· || ·) (c.2.map Value.isna))
          acc).getD i false =
        (acc.getD i false || rowBad cols i)
  | [], acc, _, _ => by simp [rowBad]
  | c :: cs, acc, ha, hc => by
      simp only [List.foldl_cons]
      have hcl : c.2.length = n := hc c (by simp)
      have hzl : (acc.zipWith (· || ·) (c.2.map Value.isna)).length = n := by
        rw [List.length_zipWith, List.length_map, ha, hcl]
        simp
      rw [maskFold_getD n i hi cs _ hzl (fun c2 h2 => hc c2 (by simp [h2]))]
      rw [getD_zipWith acc (c.2.map Value.isna) i (by omega) (by rw [List.length_map]; omega)
        false false false]
      have hmap : (c.2.map Value.isna).getD i false = Value.isna (c.2.getD i Value.na) := by
        rw [List.getD_eq_getElem _ _ (by rw [List.length_map]; omega),
          List.getD_eq_getElem _ _ (by omega : i < c.2.length)]
        simp
      rw [hmap]
      simp only [rowBad, List.any_cons]
      rw [Bool.or_assoc]

/-- `maskOf` has one entry per row. -/
theorem maskOf_length (cols : List (String × List Value)) (n : Nat)
    (hc : ∀ c ∈ cols, c.2.length = n) : (maskOf cols n).length = n := by
  unfold maskOf
  exact maskFold_length n cols _ (by simp) hc

/-- Reading `maskOf` at one row gives exactly `rowBad`. -/
theorem maskOf_getD (cols : List (String × List Value)) (n i : Nat)
    (hi : i < n) (hc : ∀ c ∈ cols, c.2.length = n) :
    (maskOf cols n).getD i false = rowBad cols i := by
  unfold maskOf
  rw [maskFold_getD n i hi cols _ (by simp) hc]
  simp

/-- The row that `out_df` holds at position `i`: each converted column's
cell assigned in mapping order. -/
def outRowAt (cols : List (String × List Value)) (i : Nat) :
    List (String × Value) :=
  cols.foldl (fun r c => setField r c.1 (c.2.getD i Value.na)) []

/-- The column-wise `out_df` fold keeps the frame length. -/
theorem outFold_length (n : Nat) :
    ∀ (cols : List (String × List Value)) (acc : List (List (String × Value))),
      acc.length = n → (∀ c ∈ cols, c.2.length = n) →
      (cols.foldl (fun acc c => acc.zipWith (fun r v => setField r c.1 v) c.2)
        acc).length = n
  | [], _, ha, _ => ha
  | c :: cs, acc, ha, hc => by
      simp only [List.foldl_cons]
      apply outFold_length n cs
      · rw [List.length_zipWith, ha, hc c (by simp)]
        simp
      · intro c2 h2
        exact hc c2 (by simp [h2])

/-- Reading the column-wise `out_df` fold at one row yields the row-wise
assembly of that row's cells. -/
theorem outFold_getD (n i : Nat) (hi : i < n) :
    ∀ (cols : List (String × List Value)) (acc : List (List (String × Value))),
      acc.length = n → (∀ c ∈ cols, c.2.length = n) →
      (cols.foldl (fun acc c => acc.zipWith (fun r v => setField r c.1 v) c.2)
          acc).getD i [] =
        cols.foldl (fun r c => setField r c.1 (c.2.getD i Value.na))
          (acc.getD i [])
  | [], acc, _, _ => by simp
  | c :: cs, acc, ha, hc => by
      simp only [List.foldl_cons]
      have hcl : c.2.length = n := hc c (by simp)
      have hzl : (acc.zipWith (fun r v => setField r c.1 v) c.2).length = n := by
        rw [List.length_zipWith, ha, hcl]
        simp
      rw [outFold_getD n i hi cs _ hzl (fun c2 h2 => hc c2 (by simp [h2]))]
      congr 1
      rw [getD_zipWith acc c.2 i (by omega) (by omega) [] Value.na []]

/-- Reading `outRowsOf` at one row gives `outRowAt`. -/
theorem outRowsOf_getD (cols : List (String × List Value)) (n i : Nat)
    (hi : i < n) (hc : ∀ c ∈ cols, c.2.length = n) :
    (outRowsOf cols n).getD i [] = outRowAt cols i := by
  unfold outRowsOf outRowAt
  rw [outFold_getD n i hi cols _ (by simp) hc]
  simp

/-- `outRowsOf` has one row per input row. -/
theorem outRowsOf_length (cols : List (String × List Value)) (n : Nat)
    (hc : ∀ c ∈ cols, c.2.length = n) : (outRowsOf cols n).length = n := by
  unfold outRowsOf
  exact outFold_length n cols _ (by simp) hc

/-- Boolean-mask row selection (`xs[mask]`) as index selection. -/
theorem maskKeep_indices {α : Type} (d : α) :
    ∀ (xs : List α) (mask : List Bool), xs.length = mask.length →
      maskKeep xs mask =
        ((List.range xs.length).filter (fun i => mask.getD i false)).map
          (fun i => xs.getD i d)
  | [], mask, _ => by simp [maskKeep]
  | x :: xs, mask, h => by
      cases mask with
      | nil => simp at h
      | cons b bs =>
          simp only [List.length_cons] at h
          have hIH := maskKeep_indices d xs bs (by omega)
          have hcomp :
              ((List.range xs.length).map Nat.succ).filter
                  (fun i => (b :: bs).getD i false) =
                ((List.range xs.length).filter (fun i => bs.getD i false)).map
                  Nat.succ := by
            rw [List.filter_map]
            refine congrArg (List.map Nat.succ) (List.filter_congr ?_)
            intro i _
            simp [Function.comp, List.getD_cons_succ]
          have hmapD : ∀ l : List Nat,
              (l.map Nat.succ).map (fun i => (x :: xs).getD i d) =
                l.map (fun i => xs.getD i d) := by
            intro l
            rw [List.map_map]
            apply List.map_congr_left
            intro i _
            simp [Function.comp, List.getD_cons_succ]
          simp only [List.length_cons, List.range_succ_eq_map, List.filter_cons,
            List.getD_cons_zero]
          rw [hcomp]
          cases b with
          | true =>
              simp only [if_true]
              simp only [maskKeep, List.zip_cons_cons, List.filter_cons]
              simp only [List.map_cons, List.getD_cons_zero]
              rw [hmapD]
              rw [← hIH]
              simp [maskKeep]
          | false =>
              simp only [Bool.false_eq_true, if_false]
              simp only [maskKeep, List.zip_cons_cons, List.filter_cons]
              simp only [Bool.false_eq_true, if_false]
              rw [hmapD]
              exact hIH

/-- Complementary boolean-mask row selection (`xs[~mask]`) as index
selection. -/
theorem maskDrop_indices {α : Type} (d : α) :
    ∀ (xs : List α) (mask : List Bool), xs.length = mask.length →
      maskDrop xs mask =
        ((List.range xs.length).filter (fun i => !(mask.getD i false))).map
          (fun i => xs.getD i d)
  | [], mask, _ => by simp [maskDrop]
  | x :: xs, mask, h => by
      cases mask with
      | nil => simp at h
      | cons b bs =>
          simp only [List.length_cons] at h
          have hIH := maskDrop_indices d xs bs (by omega)
          have hcomp :
              ((List.range xs.length).map Nat.succ).filter
                  (fun i => !((b :: bs).getD i false)) =
                ((List.range xs.length).filter (fun i => !(bs.getD i false))).map
                  Nat.succ := by
            rw [List.filter_map]
            refine congrArg (List.map Nat.succ) (List.filter_congr ?_)
            intro i _
            simp [Function.comp, List.getD_cons_succ]
          have hmapD : ∀ l : List Nat,
              (l.map Nat.succ).map (fun i => (x :: xs).getD i d) =
                l.map (fun i => xs.getD i d) := by
            intro l
            rw [List.map_map]
            apply List.map_congr_left
            intro i _
            simp [Function.comp, List.getD_cons_succ]
          simp only [List.length_cons, List.range_succ_eq_map, List.filter_cons,
            List.getD_cons_zero]
          rw [hcomp]
          cases b with
          | false =>
              simp only [Bool.not_false, if_true]
              simp only [maskDrop, List.zip_cons_cons, List.filter_cons,
                Bool.not_false, if_true]
              simp only [List.map_cons, List.getD_cons_zero]
              rw [hmapD]
              rw [← hIH]
              simp [maskDrop]
          | true =>
              simp only [Bool.not_true, Bool.false_eq_true, if_false]
              simp only [maskDrop, List.zip_cons_cons, List.filter_cons,
                Bool.not_true, Bool.false_eq_true, if_false]
              rw [hmapD]
              exact hIH

/-- C2: under a successful transform, a row of the flattened input
appears in the output exactly when every mapped field of that row
converted to a non-null value (`rowBad` is the OR over the converted
columns of that row's cell being `NA`): the output rows are precisely the
rows at non-bad indices, in order, and the side-channel invalid-rows list
is precisely the flattened rows at bad indices, in order — a row with any
single unconvertible mapped field is excluded and logged even when its
other fields converted. -/
theorem transform_rejects_iff (pdt : DtParse) (nowUtc : Int)
    (apiName : String) (mappings : List Mapping) (pages : List Json)
    (F : TFrame) (inv : List (List (String × Json)))
    (flat : List (List (String × Json))) (cols : List (String × List Value))
    (hne : (loadRows pages).isEmpty = false)
    (hf : flattenAll (loadRows pages) = .ok flat)
    (hc : convertedCols pdt flat mappings = .ok cols)
    (hok : transform_data pdt nowUtc apiName mappings pages = .ok (F, inv)) :
    inv = ((List.range flat.length).filter (fun i => rowBad cols i)).map
        (fun i => flat.getD i []) ∧
    F.rows = ((List.range flat.length).filter (fun i => !(rowBad cols i))).map
        (fun i =>
          (((mappings.map (fun m => m.target)) ++ [ingestionCol, sourceCol]).map
            (getField (setField (setField (outRowAt cols i) ingestionCol
              (Value.dt nowUtc)) sourceCol (Value.str apiName))))) ∧
    (∀ i, rowBad cols i = false ↔
      ∀ c ∈ cols, Value.isna (c.2.getD i Value.na) = false) := by
  have hcl : ∀ c ∈ cols, c.2.length = flat.length :=
    convertedCols_ok_length pdt flat mappings cols hc
  have hml : (maskOf cols flat.length).length = flat.length :=
    maskOf_length cols flat.length hcl
  have hol : (outRowsOf cols flat.length).length = flat.length :=
    outRowsOf_length cols flat.length hcl
  simp only [transform_data] at hok
  rw [hne] at hok
  simp only [Bool.false_eq_true, if_false] at hok
  rw [hf] at hok
  simp only [Bind.bind, Except.bind] at hok
  rw [hc] at hok
  simp only [Except.ok.injEq, Prod.mk.injEq] at hok
  obtain ⟨hF, hinv⟩ := hok
  refine ⟨?_, ?_, ?_⟩
  · rw [← hinv]
    rw [maskKeep_indices [] flat (maskOf cols flat.length) hml.symm]
    congr 1
    apply List.filter_congr
    intro i hi
    exact maskOf_getD cols flat.length i (List.mem_range.mp hi) hcl
  · rw [← hF]
    simp only [List.map_map]
    rw [maskDrop_indices [] (outRowsOf cols flat.length)
      (maskOf cols flat.length) (by rw [hol, hml])]
    rw [List.map_map]
    rw [hol]
    have hfil : (List.range flat.length).filter
        (fun i => !((maskOf cols flat.length).getD i false)) =
      (List.range flat.length).filter (fun i => !(rowBad cols i)) := by
      apply List.filter_congr
      intro i hi
      rw [maskOf_getD cols flat.length i (List.mem_range.mp hi) hcl]
    rw [hfil]
    apply List.map_congr_left
    intro i hi
    have hir : i < flat.length :=
      List.mem_range.mp (List.mem_filter.mp hi).1
    simp only [Function.comp]
    rw [outRowsOf_getD cols flat.length i hir hcl]
  · intro i
    simp [rowBad, List.any_eq_false]

/-- Concrete pages for the C2 witness: one convertible row and one row
whose only mapped cell is null. -/
def pagesW : List Json :=
  [Json.arr [Json.obj [("a", Json.str "x")], Json.obj [("a", Json.null)]]]

/-- Flattened rows of `pagesW`. -/
def flatW : List (List (String × Json)) :=
  [[("a", Json.str "x")], [("a", Json.null)]]

/-- Converted columns of `pagesW` under the single string mapping. -/
def colsW : List (String × List Value) := [("b", [Value.str "x", Value.na])]

/-- The single string mapping of the C2 witness. -/
def mapW : List Mapping := [⟨"a", "b", MapType.string, none, none, none⟩]

/-- Transform output frame of the C2 witness. -/
def frameW : TFrame :=
  ⟨["b", ingestionCol, sourceCol], [[Value.str "x", Value.dt 0, Value.str "api"]]⟩

/-- Side-channel rows of the C2 witness. -/
def invW : List (List (String × Json)) := [[("a", Json.null)]]

/-- C2 witness: of the two rows, the convertible one is retained and the
null-celled one is excluded and logged. -/
theorem transform_rejects_iff_witness :
    invW = ((List.range flatW.length).filter (fun i => rowBad colsW i)).map
        (fun i => flatW.getD i []) ∧
    frameW.rows =
      ((List.range flatW.length).filter (fun i => !(rowBad colsW i))).map
        (fun i =>
          (((mapW.map (fun m => m.target)) ++ [ingestionCol, sourceCol]).map
            (getField (setField (setField (outRowAt colsW i) ingestionCol
              (Value.dt 0)) sourceCol (Value.str "api"))))) ∧
    (∀ i, rowBad colsW i = false ↔
      ∀ c ∈ colsW, Value.isna (c.2.getD i Value.na) = false) :=
  transform_rejects_iff (fun _ _ => none) 0 "api" mapW pagesW frameW invW
    flatW colsW rfl
    (by
      simp only [pagesW, flatW, loadRows, flattenAll, exceptMap, flattenFields]
      rfl)
    rfl
    (by
      have hflat : flattenAll (loadRows pagesW) = .ok flatW := by
        simp only [pagesW, flatW, loadRows, flattenAll, exceptMap, flattenFields]
        rfl
      simp only [transform_data]
      rw [hflat]
      rfl)

/-- C3: with a declared schema, `validate_schema` computes
`invalid_rows / total_rows` from the distinct failing row indices and:
when that ratio strictly exceeds 5% it returns immediately with the
failure report alone (no unique-key or non-null check is performed and no
such error is appended); when the ratio is at or below 5% it continues
and appends the duplicate-unique-keys error (one per declared key set
with duplicate rows) and one error per declared non-null field containing
a null. -/
theorem validate_schema_gate (cf : CellCheck) (sc : SchemaCfg)
    (pages : List Json) (specs : List (String × SDtype)) (rows : List Json)
    (records : List VError) (counts : Nat × Nat)
    (hrows : rows = loadRows pages)
    (h1 : rows.isEmpty = false)
    (h2 : rows.all Json.isObj = true)
    (h3 : dtypeSpecs sc = .ok specs)
    (hrecs : records = specs.flatMap
      (colRecords cf rows (dfCols rows) sc.validation.non_null_fields))
    (hcounts : counts = invalidCounts records rows.length) :
    ((counts.2 : Rat) / (rows.length : Rat) > 5 / 100 →
      validate_schema cf (some sc) pages =
        .ok ⟨counts.1, counts.2, records, none⟩) ∧
    (¬ ((counts.2 : Rat) / (rows.length : Rat) > 5 / 100) →
      ∀ de nf, dupCheck rows (dfCols rows) sc.validation.unique_keys = .ok de →
        nullChecks rows (dfCols rows) sc.validation.non_null_fields = .ok nf →
        validate_schema cf (some sc) pages =
          .ok ⟨counts.1, counts.2, records ++ de ++ nf.flatten, none⟩) := by
  subst hrows
  subst hrecs
  subst hcounts
  constructor
  · intro hgt
    have hne2 : (specs.flatMap
        (colRecords cf (loadRows pages) (dfCols (loadRows pages))
          sc.validation.non_null_fields)).isEmpty = false := by
      rcases hemp : (specs.flatMap
          (colRecords cf (loadRows pages) (dfCols (loadRows pages))
            sc.validation.non_null_fields)).isEmpty with _ | _
      · rfl
      · rw [invalidCounts, if_pos hemp] at hgt
        norm_num at hgt
    simp only [validate_schema]
    rw [h1]
    simp only [Bool.false_eq_true, if_false]
    rw [h2]
    simp only [Bool.not_true, Bool.false_eq_true, if_false]
    rw [h3]
    simp only [Bind.bind, Except.bind]
    rw [hne2]
    simp only [Bool.not_false, Bool.true_and]
    rw [decide_eq_true hgt]
    simp only [if_true]
  · intro hle de nf hde hnf
    simp only [validate_schema]
    rw [h1]
    simp only [Bool.false_eq_true, if_false]
    rw [h2]
    simp only [Bool.not_true, Bool.false_eq_true, if_false]
    rw [h3]
    simp only [Bind.bind, Except.bind]
    rw [decide_eq_false hle]
    simp only [Bool.and_false, Bool.false_eq_true, if_false]
    rw [hde]
    simp only [Bind.bind, Except.bind]
    rw [hnf]

/-- C3 witness: one row, one declared column whose cell fails coercion —
the invalid fraction is 100%, so validation returns the failure report
immediately. -/
theorem validate_schema_gate_witness :
    validate_schema (fun _ _ _ => true)
        (some ⟨["a"], [("a", SDtype.int)], ⟨[], []⟩⟩)
        [Json.arr [Json.obj [("a", Json.str "bad")]]] =
      .ok ⟨0, 1, [VError.failureRecord "a" (some 0)], none⟩ :=
  (validate_schema_gate (fun _ _ _ => true)
    ⟨["a"], [("a", SDtype.int)], ⟨[], []⟩⟩
    [Json.arr [Json.obj [("a", Json.str "bad")]]] [("a", SDtype.int)]
    [Json.obj [("a", Json.str "bad")]] [VError.failureRecord "a" (some 0)]
    (0, 1) rfl rfl rfl rfl rfl rfl).1 (by norm_num)
